import Mathlib

/-!
Verification development for the WISMeet chat subsystem.

The definitions below are a shallow embedding of the chat server and client
code of the repository:

* src/lib/socket.ts      — the ChatSocketManager class (namespace SocketTS)
* src/lib/socket.js      — the plain-JS handlers wired by server.js
                           (namespace SocketJS)
* src/app/api/chat/messages/route.ts — the GET read API (namespace MessagesRoute)
* src/components/MeetingChat.tsx     — client-side reconciliation
                           (namespace ClientChat)

JavaScript Map objects are embedded as association lists with Map.set /
Map.get / Map.delete semantics; JS Set objects as duplicate-free lists;
MongoDB collections as lists of records with insertOne / findOne /
updateOne (first match) / deleteMany semantics.  Date.now() and new Date()
are an explicit clock field (milliseconds as Nat).  setTimeout/clearTimeout
are embedded as scheduled-task records carrying their fire time and an
active flag; the runtime guarantees that a timeout never fires before its
delay elapsed and that a cleared or already-fired timeout never fires,
which the fire operation's guard reflects.
-/

/-- Map.get: first binding for the key (Map keys are unique). -/
def alookup {β : Type} (k : String) : List (String × β) → Option β
  | [] => none
  | (k2, v) :: rest => if k2 = k then some v else alookup k rest

/-- Map.set: replace the binding in place if present, else append. -/
def aset {β : Type} (k : String) (v : β) : List (String × β) → List (String × β)
  | [] => [(k, v)]
  | (k2, v2) :: rest => if k2 = k then (k, v) :: rest else (k2, v2) :: aset k v rest

/-- Map.delete: remove the binding for the key. -/
def adel {β : Type} (k : String) : List (String × β) → List (String × β)
  | [] => []
  | (k2, v2) :: rest => if k2 = k then rest else (k2, v2) :: adel k rest

/-- Set.add: append the element unless already present. -/
def sadd (x : String) (l : List String) : List String :=
  if x ∈ l then l else l ++ [x]

/-- Set.delete: remove the element. -/
def sdel (x : String) (l : List String) : List String :=
  l.filter (fun y => y ≠ x)

/-- messageType field: 'user' or 'system'. -/
inductive MsgType
  | user
  | system
deriving DecidableEq, Repr

/-- A MessageReaction record ({userId, emoji, timestamp}). -/
structure Reaction where
  userId : String
  emoji : String
  timestamp : Nat
deriving DecidableEq, Repr

/-- A persisted document of the messages collection. -/
structure StoredMessage where
  id : String
  meetingId : String
  senderId : String
  senderName : String
  senderAvatar : Option String
  message : String
  messageType : MsgType
  timestamp : Nat
  isEdited : Bool
  reactions : List Reaction
deriving DecidableEq, Repr

/-- A persisted document of the chat_sessions collection. -/
structure ChatSessionRec where
  meetingId : String
  userId : String
  joinedAt : Nat
  leftAt : Option Nat
deriving DecidableEq, Repr

/-- A persisted document of the meetings collection. -/
structure MeetingRec where
  meetingId : String
  title : String
  hostId : String
  participants : List String
  startTime : Nat
  status : String
  createdAt : Nat
  updatedAt : Nat
  recordingId : String
deriving DecidableEq, Repr

/-- The durable store: the three collections used by the chat subsystem,
plus the id counter backing insertedId generation. -/
structure Db where
  messages : List StoredMessage
  chatSessions : List ChatSessionRec
  meetings : List MeetingRec
  nextId : Nat
deriving DecidableEq, Repr

/-- One hex digit (lowercase), as produced by ObjectId.toString. -/
def hexDigit (n : Nat) : Char :=
  if n < 10 then Char.ofNat (48 + n) else Char.ofNat (97 + (n - 10))

/-- Hex rendering of a Nat (24 digits of fuel, enough for an ObjectId). -/
def natToHexAux : Nat → Nat → String → String
  | 0, _, acc => acc
  | _ + 1, 0, acc => acc
  | fuel + 1, n, acc => natToHexAux fuel (n / 16) (String.singleton (hexDigit (n % 16)) ++ acc)

/-- A 24-character hex string encoding the counter: the model of the
ObjectId the store assigns as insertedId. -/
def genId (n : Nat) : String :=
  let hex := if n = 0 then "0" else natToHexAux 24 n ""
  String.mk (List.replicate (24 - hex.length) (Char.ofNat 48)) ++ hex

/-- Model of the bson ObjectId(string) constructor succeeding: a
24-character hex string.  new ObjectId(s) throws for any other string. -/
def isValidObjectId (s : String) : Bool :=
  s.length == 24 && s.data.all (fun c => c.isDigit || (97 ≤ c.toNat && c.toNat ≤ 102))

/-- messagesCollection.insertOne: append the document, assigning an id. -/
def insertMessage (db : Db) (m : String) (senderId senderName : String)
    (senderAvatar : Option String) (text : String) (kind : MsgType)
    (ts : Nat) : Db × StoredMessage :=
  let saved : StoredMessage :=
    { id := genId db.nextId, meetingId := m, senderId := senderId,
      senderName := senderName, senderAvatar := senderAvatar,
      message := text, messageType := kind, timestamp := ts,
      isEdited := false, reactions := [] }
  ({ db with messages := db.messages ++ [saved], nextId := db.nextId + 1 }, saved)

/-- updateOne on the messages collection: push a reaction onto the first
document whose _id matches (ids are unique, so at most one matches). -/
def pushReaction (messageId : String) (r : Reaction) :
    List StoredMessage → List StoredMessage
  | [] => []
  | msg :: rest =>
    if msg.id = messageId then { msg with reactions := msg.reactions ++ [r] } :: rest
    else msg :: pushReaction messageId r rest

/-- updateOne on the meetings collection: apply f to the first document
whose meetingId matches. -/
def updateMeeting (m : String) (f : MeetingRec → MeetingRec) :
    List MeetingRec → List MeetingRec
  | [] => []
  | mt :: rest =>
    if mt.meetingId = m then f mt :: rest
    else mt :: updateMeeting m f rest

/-- updateOne on the chat_sessions collection: apply f to the first
document whose (meetingId, userId) matches. -/
def updateSession (m u : String) (f : ChatSessionRec → ChatSessionRec) :
    List ChatSessionRec → List ChatSessionRec
  | [] => []
  | cs :: rest =>
    if cs.meetingId = m ∧ cs.userId = u then f cs :: rest
    else cs :: updateSession m u f rest

/-- findOne {meetingId} on the meetings collection. -/
def findMeeting (db : Db) (m : String) : Option MeetingRec :=
  db.meetings.find? (fun mt => mt.meetingId == m)

/-- findOne {meetingId, userId} on the chat_sessions collection. -/
def findSession (db : Db) (m u : String) : Option ChatSessionRec :=
  db.chatSessions.find? (fun cs => cs.meetingId == m && cs.userId == u)

/-- A ConnectedUser entry of the in-memory connection registry. -/
structure ConnectedUser where
  userId : String
  userName : String
  socketId : String
  meetingId : String
deriving DecidableEq, Repr

/-- A typing entry ({userId, userName, timer}): the timer field holds the
id of the scheduled cancellable task created by setTimeout. -/
structure TypingEntry where
  userId : String
  userName : String
  timer : Nat
deriving DecidableEq, Repr

/-- A scheduled cancellable task created by setTimeout in typing_start:
its callback is handleTypingStop(meetingId, userId), it is due at fireAt,
and clearTimeout (or having fired) resets active. -/
structure TimerRec where
  id : Nat
  meetingId : String
  userId : String
  fireAt : Nat
  active : Bool
deriving DecidableEq, Repr

/-- A recentStatusUpdates entry ({userId, timestamp}). -/
structure RecentUpdate where
  userId : String
  timestamp : Nat
deriving DecidableEq, Repr

/-- Addressing of an outbound emit: io.to(room), socket.to(room) (room
minus the sending socket), or socket.emit (one socket). -/
inductive Target
  | room (meetingId : String)
  | roomExceptSender (meetingId : String) (socketId : String)
  | socket (socketId : String)
deriving DecidableEq, Repr

/-- An outbound server-to-client event. -/
inductive EventOut
  | newMessage (msg : StoredMessage)
  | userJoined (userId userName : String)
  | userLeft (userId userName : String)
  | userTyping (userId userName : String)
  | userStoppedTyping (userId : String)
  | messageReaction (messageId : String) (reaction : Reaction)
  | errorEv (message : String)
deriving DecidableEq, Repr

/-- One emitted event with its addressing. -/
structure Emit where
  target : Target
  event : EventOut
deriving DecidableEq, Repr

/-- The full server-side state: the ChatSocketManager maps, the scheduled
tasks, the durable store, and the clock. -/
structure ServerState where
  connectedUsers : List (String × ConnectedUser)
  meetingUsers : List (String × List String)
  typingUsers : List (String × List (String × TypingEntry))
  recentStatusUpdates : List (String × RecentUpdate)
  timers : List TimerRec
  nextTimer : Nat
  db : Db
  now : Nat
deriving DecidableEq, Repr

/-- clearTimeout: deactivate the task with the given id. -/
def cancelTimer (tid : Nat) (ts : List TimerRec) : List TimerRec :=
  ts.map (fun t => if t.id = tid then { t with active := false } else t)

/-- Whether some connected user matches the given (userId, meetingId):
Array.from(connectedUsers.values()).find(u => u.userId === userId and
u.meetingId === meetingId). -/
def hasConnectedUser (s : ServerState) (u m : String) : Bool :=
  s.connectedUsers.any (fun p => p.2.userId == u && p.2.meetingId == m)

/-- Whether a socket is a member of a meeting room (meetingUsers mirrors
socket.io room membership: join adds, disconnect removes). -/
def roomMember (s : ServerState) (m sid : String) : Prop :=
  sid ∈ (alookup m s.meetingUsers).getD []

/-- Whether a single emit is delivered to a given socket. -/
def emitDeliversTo (s : ServerState) (e : Emit) (sid : String) : Prop :=
  match e.target with
  | Target.room m => roomMember s m sid
  | Target.roomExceptSender m sender => roomMember s m sid ∧ sid ≠ sender
  | Target.socket sid2 => sid = sid2

namespace SocketTS

/-- createChatSession of src/lib/socket.ts: insert a chat_sessions record
for (meetingId, userId) unless one exists. -/
def createChatSession (db : Db) (m u : String) (now : Nat) : Db :=
  match findSession db m u with
  | some _ => db
  | none =>
    { db with chatSessions :=
        db.chatSessions ++ [{ meetingId := m, userId := u, joinedAt := now, leftAt := none }] }

/-- updateChatSession of src/lib/socket.ts: set leftAt on the session. -/
def updateChatSession (db : Db) (m u : String) (now : Nat) : Db :=
  { db with chatSessions :=
      updateSession m u (fun cs => { cs with leftAt := some now }) db.chatSessions }

/-- The duplicate scan of cleanupDuplicateSystemMessages: walk the
timestamp-sorted system messages, remember each (message, senderId) key
the first time it is seen, and collect the ids of later occurrences. -/
def dupScan : List StoredMessage → List String → List String
  | [], _ => []
  | msg :: rest, seen =>
    let key := msg.message ++ ":" ++ msg.senderId
    if key ∈ seen then msg.id :: dupScan rest seen
    else dupScan rest (key :: seen)

/-- The timestamp-ascending sort used by the find(...).sort({timestamp: 1})
queries (stable merge sort). -/
def sortByTs (l : List StoredMessage) : List StoredMessage :=
  l.mergeSort (fun a b => a.timestamp ≤ b.timestamp)

/-- cleanupDuplicateSystemMessages of src/lib/socket.ts: fetch this
meeting's system messages sorted by timestamp, keep only the first
occurrence of each (message, senderId) key, deleteMany the rest. -/
def cleanupDuplicateSystemMessages (db : Db) (m : String) : Db :=
  let systemMessages :=
    sortByTs (db.messages.filter
      (fun msg => msg.meetingId == m && msg.messageType == MsgType.system))
  let duplicatesToRemove := dupScan systemMessages []
  { db with messages := db.messages.filter (fun msg => msg.id ∉ duplicatesToRemove) }

/-- The join_meeting handler of src/lib/socket.ts: NoOp when a connection
for (userId, meetingId) already exists; otherwise register the connection,
add the socket to the meeting set and room, create the chat session, clean
duplicate system messages, and notify the others in the room. -/
def joinMeeting (s : ServerState) (m u name sid : String) : ServerState × List Emit :=
  if hasConnectedUser s u m then (s, [])
  else
    let cu : ConnectedUser := { userId := u, userName := name, socketId := sid, meetingId := m }
    let mu := (alookup m s.meetingUsers).getD []
    let db1 := createChatSession s.db m u s.now
    let db2 := cleanupDuplicateSystemMessages db1 m
    ({ s with
        connectedUsers := aset sid cu s.connectedUsers,
        meetingUsers := aset m (sadd sid mu) s.meetingUsers,
        db := db2 },
     [{ target := Target.roomExceptSender m sid, event := EventOut.userJoined u name }])

/-- broadcastSystemMessage of src/lib/socket.ts: skip when an identical
system message was persisted within the last 30 seconds, otherwise insert
a system message and broadcast it to the room. -/
def broadcastSystemMessage (s : ServerState) (m text : String) : ServerState × List Emit :=
  let existing := s.db.messages.find? (fun msg =>
    msg.meetingId == m && msg.messageType == MsgType.system &&
    msg.message == text && msg.senderId == "system" &&
    msg.timestamp + 30000 ≥ s.now)
  match existing with
  | some _ => (s, [])
  | none =>
    let (db1, saved) := insertMessage s.db m "system" "System" none text MsgType.system s.now
    ({ s with db := db1 },
     [{ target := Target.room m, event := EventOut.newMessage saved }])

/-- The participant_status_update handler of src/lib/socket.ts. -/
def participantStatusUpdate (s : ServerState) (m u : String) (status : String)
    (userName : Option String) : ServerState × List Emit :=
  let updateKey := m ++ ":" ++ u ++ ":" ++ status
  let recentUpdate := alookup updateKey s.recentStatusUpdates
  let suppressed : Bool :=
    match recentUpdate with
    | some r => decide (s.now - r.timestamp < 10000)
    | none => false
  if suppressed then (s, [])
  else if status == "joined" && hasConnectedUser s u m then (s, [])
  else
    let rec1 : RecentUpdate := { userId := u, timestamp := s.now }
    let recent1 := aset updateKey rec1 s.recentStatusUpdates
    let s1 := { s with recentStatusUpdates := recent1 }
    if status = "joined" then
      broadcastSystemMessage s1 m ((userName.getD u) ++ " joined the meeting")
    else if status = "left" then
      broadcastSystemMessage s1 m ((userName.getD u) ++ " left the meeting")
    else (s1, [])

/-- The send_message handler of src/lib/socket.ts.  The dbOk flag models
whether the awaited insertOne resolves or rejects: on success the saved
message (server-assigned id and timestamp) is broadcast to the whole room;
on failure the catch block emits an error to the sending socket only. -/
def sendMessage (s : ServerState) (dbOk : Bool) (m text senderId senderName : String)
    (senderAvatar : Option String) (sid : String) : ServerState × List Emit :=
  if dbOk then
    let (db1, saved) :=
      insertMessage s.db m senderId senderName senderAvatar text.trim MsgType.user s.now
    ({ s with db := db1 },
     [{ target := Target.room m, event := EventOut.newMessage saved }])
  else
    (s, [{ target := Target.socket sid, event := EventOut.errorEv "Failed to send message" }])

end SocketTS

namespace SocketTS

/-- handleTypingStop of src/lib/socket.ts: if a typing entry exists for
(meetingId, userId), clear its timer, delete the entry, and notify the
room that the user stopped typing; otherwise do nothing. -/
def handleTypingStop (s : ServerState) (m u : String) : ServerState × List Emit :=
  match alookup m s.typingUsers with
  | none => (s, [])
  | some typingMap =>
    match alookup u typingMap with
    | none => (s, [])
    | some userTimer =>
      let timers1 := cancelTimer userTimer.timer s.timers
      let typing1 := aset m (adel u typingMap) s.typingUsers
      ({ s with timers := timers1, typingUsers := typing1 },
       [{ target := Target.room m, event := EventOut.userStoppedTyping u }])

/-- The typing_start handler of src/lib/socket.ts: clear the existing
timer for (meetingId, userId) if any, schedule a fresh 3000ms expiry task
calling handleTypingStop, store the typing entry, and notify the others. -/
def typingStart (s : ServerState) (m u name sid : String) : ServerState × List Emit :=
  let typingMap := (alookup m s.typingUsers).getD []
  let timers1 :=
    match alookup u typingMap with
    | some userTimer => cancelTimer userTimer.timer s.timers
    | none => s.timers
  let tid := s.nextTimer
  let newTimer : TimerRec :=
    { id := tid, meetingId := m, userId := u, fireAt := s.now + 3000, active := true }
  let entry : TypingEntry := { userId := u, userName := name, timer := tid }
  ({ s with
      timers := timers1 ++ [newTimer],
      nextTimer := tid + 1,
      typingUsers := aset m (aset u entry typingMap) s.typingUsers },
   [{ target := Target.roomExceptSender m sid, event := EventOut.userTyping u name }])

/-- The typing_stop handler of src/lib/socket.ts. -/
def typingStop (s : ServerState) (m u : String) : ServerState × List Emit :=
  handleTypingStop s m u

/-- The runtime firing a scheduled task at time tau: a setTimeout callback
runs only if the task was neither cleared nor already fired (active) and
its delay has elapsed (tau at or after fireAt); firing spends the task and
runs handleTypingStop with the closure's meetingId and userId. -/
def timerFire (s : ServerState) (tid : Nat) (tau : Nat) : ServerState × List Emit :=
  match s.timers.find? (fun t => t.id == tid) with
  | none => (s, [])
  | some t =>
    if t.active ∧ t.fireAt ≤ tau then
      let s1 := { s with timers := cancelTimer tid s.timers, now := tau }
      handleTypingStop s1 t.meetingId t.userId
    else (s, [])

/-- A sequence of task-firing attempts (task id, attempt time), threaded
through the state, collecting all emits. -/
def fireMany (s : ServerState) : List (Nat × Nat) → ServerState × List Emit
  | [] => (s, [])
  | (tid, tau) :: rest =>
    let (s1, es1) := timerFire s tid tau
    let (s2, es2) := fireMany s1 rest
    (s2, es1 ++ es2)

/-- The react_to_message handler of src/lib/socket.ts: build the reaction,
save it through saveReactionToDatabase (new ObjectId(messageId) throws on
a malformed id, landing in the catch block that emits an error to the
caller; a well-formed id is used in an updateOne that matches at most one
document and resolves either way), then broadcast the reaction to the
caller's meeting room if the caller is a registered connection. -/
def reactToMessage (s : ServerState) (messageId u emoji sid : String) :
    ServerState × List Emit :=
  let reaction : Reaction := { userId := u, emoji := emoji, timestamp := s.now }
  if isValidObjectId messageId then
    let db1 := { s.db with messages := pushReaction messageId reaction s.db.messages }
    let emits :=
      match alookup sid s.connectedUsers with
      | some user =>
        [{ target := Target.room user.meetingId,
           event := EventOut.messageReaction messageId reaction }]
      | none => []
    ({ s with db := db1 }, emits)
  else
    (s, [{ target := Target.socket sid, event := EventOut.errorEv "Failed to add reaction" }])

/-- The disconnect handler of src/lib/socket.ts: if the socket belongs to
a registered user, remove it from the meeting set (dropping the set when
it empties), notify the others, and set leftAt on the chat session; in
all cases drop the connectedUsers entry.  The typingUsers map and the
scheduled tasks are not touched by this handler. -/
def disconnect (s : ServerState) (sid : String) : ServerState × List Emit :=
  match alookup sid s.connectedUsers with
  | some user =>
    let meetingUsers1 :=
      match alookup user.meetingId s.meetingUsers with
      | some set0 =>
        let set1 := sdel sid set0
        if set1.isEmpty then adel user.meetingId s.meetingUsers
        else aset user.meetingId set1 s.meetingUsers
      | none => s.meetingUsers
    let db1 := updateChatSession s.db user.meetingId user.userId s.now
    ({ s with
        connectedUsers := adel sid s.connectedUsers,
        meetingUsers := meetingUsers1,
        db := db1 },
     [{ target := Target.roomExceptSender user.meetingId sid,
        event := EventOut.userLeft user.userId user.userName }])
  | none =>
    ({ s with connectedUsers := adel sid s.connectedUsers }, [])

end SocketTS

namespace SocketJS

/-- createChatSession of src/lib/socket.js: insert the chat_sessions
record if absent, then create the meetings record (joiner as hostId and
sole participant) if absent, else $addToSet the joiner into participants. -/
def createChatSession (db : Db) (m u : String) (now : Nat) : Db :=
  let db1 :=
    match findSession db m u with
    | some _ => db
    | none =>
      { db with chatSessions :=
          db.chatSessions ++ [{ meetingId := m, userId := u, joinedAt := now, leftAt := none }] }
  match findMeeting db m with
  | none =>
    let mt : MeetingRec :=
      { meetingId := m, title := "Meeting " ++ m.take 8, hostId := u,
        participants := [u], startTime := now, status := "active",
        createdAt := now, updatedAt := now,
        recordingId := "recording-" ++ m ++ "-" ++ toString now }
    { db1 with meetings := db1.meetings ++ [mt] }
  | some existingMeeting =>
    if u ∈ existingMeeting.participants then db1
    else
      let addToSet := fun (mt : MeetingRec) =>
        { mt with
            participants :=
              if u ∈ mt.participants then mt.participants else mt.participants ++ [u],
            updatedAt := now }
      { db1 with meetings := updateMeeting m addToSet db1.meetings }

/-- The join_meeting handler of src/lib/socket.js: unconditionally store
the connection, add the socket to the meeting set and room, create the
chat session and meeting record, and notify the others — there is no
already-joined check in this handler. -/
def joinMeeting (s : ServerState) (m u name sid : String) : ServerState × List Emit :=
  let cu : ConnectedUser := { userId := u, userName := name, socketId := sid, meetingId := m }
  let mu := (alookup m s.meetingUsers).getD []
  let db1 := createChatSession s.db m u s.now
  ({ s with
      connectedUsers := aset sid cu s.connectedUsers,
      meetingUsers := aset m (sadd sid mu) s.meetingUsers,
      db := db1 },
   [{ target := Target.roomExceptSender m sid, event := EventOut.userJoined u name }])

end SocketJS

namespace MessagesRoute

/-- Result of the GET route: a JSON message list or an HTTP error code. -/
inductive GetResult
  | ok (messages : List StoredMessage)
  | err (status : Nat)
deriving DecidableEq, Repr

/-- One character admitted by the meetingId pattern [A-Za-z0-9:_\-.]. -/
def validChar (c : Char) : Bool :=
  c.isAlphanum || c == Char.ofNat 58 || c == Char.ofNat 95 || c == Char.ofNat 45 || c == Char.ofNat 46

/-- The meetingId validation of the route: present, at most 128 chars,
and matching the pattern (which requires at least one character). -/
def validMeetingId (m : String) : Bool :=
  !(m.length == 0) && !(m.length > 128) && m.data.all validChar

/-- GET /api/chat/messages of src/app/api/chat/messages/route.ts:
401 without an authenticated user, 400 on a missing or invalid meetingId,
404 when the meeting is unknown, 403 when the caller is neither the host
nor a listed participant, otherwise the meeting's messages sorted oldest
first, limited to the clamped limit.  rawLimit is the parseInt of the
limit parameter (default '50'). -/
def GET (authUserId : Option String) (meetingIdParam : Option String)
    (rawLimit : Int) (db : Db) : GetResult :=
  match authUserId with
  | none => GetResult.err 401
  | some userId =>
    let m := (meetingIdParam.getD "")
    if !(validMeetingId m) then GetResult.err 400
    else
      let limit : Int := min (max rawLimit 1) 100
      match findMeeting db m with
      | none => GetResult.err 404
      | some meeting =>
        let participants := meeting.participants
        if meeting.hostId ≠ userId ∧ userId ∉ participants then GetResult.err 403
        else
          let sorted := SocketTS.sortByTs (db.messages.filter (fun msg => msg.meetingId == m))
          GetResult.ok (sorted.take limit.toNat)

end MessagesRoute

namespace ClientChat

/-- A client-side message as handleNewMessage sees it: the id is
String(m._id) (a temporary client id while pending), the timestamp is the
epoch value of new Date(m.timestamp).getTime(). -/
structure CMsg where
  id : String
  senderId : String
  message : String
  timestamp : Int
  pending : Bool
deriving DecidableEq, Repr

/-- The placeholder predicate of handleNewMessage: a pending message with
the same sender, same text, and a timestamp within 5 seconds. -/
def matchesPending (serverMsg m2 : CMsg) : Bool :=
  m2.pending && m2.senderId == serverMsg.senderId &&
  m2.message == serverMsg.message &&
  decide ((m2.timestamp - serverMsg.timestamp).natAbs < 5000)

/-- handleNewMessage of src/components/MeetingChat.tsx: drop the incoming
message if its id is already present; otherwise replace in place the first
pending placeholder with the same sender, same text and a timestamp within
5 seconds; otherwise append. -/
def handleNewMessage (prev : List CMsg) (serverMsg : CMsg) : List CMsg :=
  if prev.any (fun m2 => m2.id == serverMsg.id) then prev
  else
    match prev.findIdx? (matchesPending serverMsg) with
    | some idx => prev.set idx { serverMsg with pending := false }
    | none => prev ++ [{ serverMsg with pending := false }]

end ClientChat

/-- The user_stopped_typing emissions addressed to meeting m for user u
within a list of emits. -/
def stopEmits (m u : String) (es : List Emit) : List Emit :=
  es.filter (fun e =>
    decide (e.target = Target.room m ∧ e.event = EventOut.userStoppedTyping u))

/-- The typing entry currently stored for (m, u). -/
def typingEntry (s : ServerState) (m u : String) : Option TypingEntry :=
  alookup u ((alookup m s.typingUsers).getD [])

/-- The active scheduled tasks whose callback is handleTypingStop(m, u). -/
def activeTimersFor (s : ServerState) (m u : String) : List TimerRec :=
  s.timers.filter (fun t => t.active && t.meetingId == m && t.userId == u)

/-- The persisted system messages of meeting m with the given text. -/
def systemMessagesWith (db : Db) (m text : String) : List StoredMessage :=
  db.messages.filter (fun msg =>
    msg.meetingId == m && msg.messageType == MsgType.system && msg.message == text)

/-- The persisted chat sessions for (m, u). -/
def sessionsFor (db : Db) (m u : String) : List ChatSessionRec :=
  db.chatSessions.filter (fun cs => cs.meetingId == m && cs.userId == u)

section MapLemmas

theorem alookup_aset_self {β : Type} (k : String) (v : β) (l : List (String × β)) :
    alookup k (aset k v l) = some v := by
  induction l with
  | nil => simp [aset, alookup]
  | cons p rest ih =>
    obtain ⟨k2, v2⟩ := p
    by_cases h : k2 = k
    · simp [aset, alookup, h]
    · simp [aset, alookup, h, ih]

theorem alookup_aset_ne {β : Type} {k1 k2 : String} (v : β) (l : List (String × β))
    (h : k1 ≠ k2) : alookup k1 (aset k2 v l) = alookup k1 l := by
  induction l with
  | nil => simp [aset, alookup, Ne.symm h]
  | cons p rest ih =>
    obtain ⟨k3, v3⟩ := p
    by_cases h2 : k3 = k2
    · subst h2
      simp [aset, alookup, Ne.symm h]
    · simp only [aset, alookup, if_neg h2]
      by_cases h3 : k3 = k1
      · simp [alookup, h3]
      · simp [alookup, h3, ih]

theorem alookup_adel_ne {β : Type} {k1 k2 : String} (l : List (String × β))
    (h : k1 ≠ k2) : alookup k1 (adel k2 l) = alookup k1 l := by
  induction l with
  | nil => simp [adel]
  | cons p rest ih =>
    obtain ⟨k3, v3⟩ := p
    by_cases h2 : k3 = k2
    · subst h2
      simp [adel, alookup, Ne.symm h]
    · simp only [adel, if_neg h2]
      by_cases h3 : k3 = k1
      · simp [alookup, h3]
      · simp [alookup, h3, ih]

theorem mem_aset {β : Type} {p : String × β} {k : String} {v : β} {l : List (String × β)}
    (h : p ∈ aset k v l) : p = (k, v) ∨ p ∈ l := by
  induction l with
  | nil => simpa [aset] using h
  | cons q rest ih =>
    obtain ⟨k2, v2⟩ := q
    by_cases h2 : k2 = k
    · simp [aset, h2] at h
      rcases h with h | h
      · exact Or.inl (by simp [h])
      · exact Or.inr (by simp [h])
    · simp [aset, h2] at h
      rcases h with h | h
      · exact Or.inr (by simp [h])
      · rcases ih h with h3 | h3
        · exact Or.inl h3
        · exact Or.inr (by simp [h3])

theorem mem_adel {β : Type} {p : String × β} {k : String} {l : List (String × β)}
    (h : p ∈ adel k l) : p ∈ l := by
  induction l with
  | nil => simp [adel] at h
  | cons q rest ih =>
    obtain ⟨k2, v2⟩ := q
    by_cases h2 : k2 = k
    · simp [adel, h2] at h
      exact List.mem_cons_of_mem _ h
    · simp [adel, h2] at h
      rcases h with h | h
      · exact List.mem_cons.2 (Or.inl (by simp [h]))
      · exact List.mem_cons_of_mem _ (ih h)

theorem alookup_mem {β : Type} {k : String} {v : β} {l : List (String × β)}
    (h : alookup k l = some v) : (k, v) ∈ l := by
  induction l with
  | nil => simp [alookup] at h
  | cons q rest ih =>
    obtain ⟨k2, v2⟩ := q
    by_cases h2 : k2 = k
    · simp [alookup, h2] at h
      simp [h2, h]
    · simp [alookup, h2] at h
      exact List.mem_cons_of_mem _ (ih h)

end MapLemmas

/-- An empty durable store. -/
def exDb : Db := { messages := [], chatSessions := [], meetings := [], nextId := 0 }

/-- A fresh server state at clock 100000ms. -/
def exS : ServerState :=
  { connectedUsers := [], meetingUsers := [], typingUsers := [],
    recentStatusUpdates := [], timers := [], nextTimer := 0, db := exDb, now := 100000 }

/-- exS after user u1 (Alice) joined meeting m1 on socket s1 (socket.ts). -/
def exJoined : ServerState := (SocketTS.joinMeeting exS "m1" "u1" "Alice" "s1").1

/-- exJoined after a typing_start from u1: a 3s expiry task is pending. -/
def exTyping : ServerState := (SocketTS.typingStart exJoined "m1" "u1" "Alice" "s1").1

/-- exTyping after u1's socket disconnected. -/
def exAfterDisc : ServerState := (SocketTS.disconnect exTyping "s1").1

/-- C8 (confirmed).  Client reconciliation: if a message with the incoming
server-assigned id is already present, the list is unchanged; otherwise if
a pending placeholder matches (same senderId, same text, timestamp within
5 seconds) the first such placeholder is replaced in place and the list
does not grow — no second visible copy; otherwise the message is
appended. -/
theorem client_reconciliation (prev : List ClientChat.CMsg) (serverMsg : ClientChat.CMsg) :
    (prev.any (fun m2 => m2.id == serverMsg.id) = true →
      ClientChat.handleNewMessage prev serverMsg = prev)
    ∧ (prev.any (fun m2 => m2.id == serverMsg.id) = false →
      ∀ idx, prev.findIdx? (ClientChat.matchesPending serverMsg) = some idx →
        ClientChat.handleNewMessage prev serverMsg
            = prev.set idx { serverMsg with pending := false }
          ∧ (ClientChat.handleNewMessage prev serverMsg).length = prev.length)
    ∧ (prev.any (fun m2 => m2.id == serverMsg.id) = false →
      prev.findIdx? (ClientChat.matchesPending serverMsg) = none →
        ClientChat.handleNewMessage prev serverMsg
          = prev ++ [{ serverMsg with pending := false }]) := by
  refine ⟨fun h => ?_, fun h idx hidx => ?_, fun h hidx => ?_⟩
  · simp [ClientChat.handleNewMessage, h]
  · constructor
    · simp [ClientChat.handleNewMessage, h, hidx]
    · simp [ClientChat.handleNewMessage, h, hidx]
  · simp [ClientChat.handleNewMessage, h, hidx]

/-- Witness for client_reconciliation: a concrete pending placeholder is
replaced in place by the matching server echo. -/
theorem client_reconciliation_witness :
    ClientChat.handleNewMessage
        [{ id := "tmp-1", senderId := "u1", message := "hi", timestamp := 1000, pending := true }]
        { id := "srv-1", senderId := "u1", message := "hi", timestamp := 4000, pending := false }
      = [{ id := "srv-1", senderId := "u1", message := "hi", timestamp := 4000, pending := false }] :=
  (client_reconciliation
      [{ id := "tmp-1", senderId := "u1", message := "hi", timestamp := 1000, pending := true }]
      { id := "srv-1", senderId := "u1", message := "hi", timestamp := 4000, pending := false }).2.1
    (by decide) 0 (by decide) |>.1

/-- C5 (corrected): counterexample to the claim as stated.  With Alice
typing in m1 and her 3s expiry task pending, disconnecting her socket
leaves her typing entry in place and her expiry task active, and the task
still fires afterwards, emitting user_stopped_typing into the room. -/
theorem disconnect_leaves_typing_cx :
    typingEntry exAfterDisc "m1" "u1" = some { userId := "u1", userName := "Alice", timer := 0 }
    ∧ activeTimersFor exAfterDisc "m1" "u1"
        = [{ id := 0, meetingId := "m1", userId := "u1", fireAt := 103000, active := true }]
    ∧ (SocketTS.timerFire exAfterDisc 0 103000).2
        = [{ target := Target.room "m1", event := EventOut.userStoppedTyping "u1" }] := by
  decide

/-- C5 (corrected), amended claim: the disconnect handler never touches
the typing map or the scheduled expiry tasks — a disconnected user's
typing entries stay registered and their pending expiry tasks stay active
(and can still fire, as the counterexample shows). -/
theorem disconnect_preserves_typing (s : ServerState) (sid : String) :
    (SocketTS.disconnect s sid).1.typingUsers = s.typingUsers
    ∧ (SocketTS.disconnect s sid).1.timers = s.timers := by
  unfold SocketTS.disconnect
  cases h : alookup sid s.connectedUsers with
  | none => simp
  | some user =>
    cases h2 : alookup user.meetingId s.meetingUsers with
    | none => simp [h2]
    | some set0 =>
      by_cases h3 : (sdel sid set0).isEmpty <;> simp [h2, h3]

/-- The sort({timestamp: 1}) query result is non-decreasing in timestamp. -/
theorem sortByTs_sorted (l : List StoredMessage) :
    (SocketTS.sortByTs l).Pairwise (fun a b => a.timestamp ≤ b.timestamp) := by
  unfold SocketTS.sortByTs
  have h : (l.mergeSort (fun a b => a.timestamp ≤ b.timestamp)).Pairwise
      (fun a b => (decide (a.timestamp ≤ b.timestamp)) = true) := by
    apply List.sorted_mergeSort
    · intro a b c hab hbc
      simp only [decide_eq_true_eq] at hab hbc ⊢
      omega
    · intro a b
      simp [Nat.le_total]
  exact h.imp (by simp)

/-- C7 (confirmed).  GET messages with an authenticated caller and a valid
meetingId: 404 when the meeting is unknown; 403 when the caller is neither
the host nor a listed participant; otherwise the meeting's messages oldest
first, with the requested limit clamped into 1..100. -/
theorem get_messages_spec (userId m : String) (rawLimit : Int) (db : Db)
    (hv : MessagesRoute.validMeetingId m = true) :
    (findMeeting db m = none →
      MessagesRoute.GET (some userId) (some m) rawLimit db = MessagesRoute.GetResult.err 404)
    ∧ (∀ meeting, findMeeting db m = some meeting →
        ((meeting.hostId ≠ userId ∧ userId ∉ meeting.participants) →
          MessagesRoute.GET (some userId) (some m) rawLimit db = MessagesRoute.GetResult.err 403)
        ∧ ((meeting.hostId = userId ∨ userId ∈ meeting.participants) →
            MessagesRoute.GET (some userId) (some m) rawLimit db
              = MessagesRoute.GetResult.ok
                  ((SocketTS.sortByTs (db.messages.filter (fun msg => msg.meetingId == m))).take
                    (min (max rawLimit 1) 100).toNat)
            ∧ (1 : Int) ≤ min (max rawLimit 1) 100
            ∧ min (max rawLimit 1) 100 ≤ 100
            ∧ (∀ msgs,
                MessagesRoute.GET (some userId) (some m) rawLimit db
                    = MessagesRoute.GetResult.ok msgs →
                msgs.Pairwise (fun a b => a.timestamp ≤ b.timestamp)))) := by
  constructor
  · intro hnone
    simp [MessagesRoute.GET, hv, hnone]
  · intro meeting hsome
    have hauth : ∀ hcond : ¬(meeting.hostId ≠ userId ∧ userId ∉ meeting.participants),
        MessagesRoute.GET (some userId) (some m) rawLimit db
          = MessagesRoute.GetResult.ok
              ((SocketTS.sortByTs (db.messages.filter (fun msg => msg.meetingId == m))).take
                (min (max rawLimit 1) 100).toNat) := by
      intro hcond
      simp [MessagesRoute.GET, hv, hsome, hcond]
    constructor
    · intro hdeny
      simp [MessagesRoute.GET, hv, hsome, hdeny]
    · intro hallow
      have hcond : ¬(meeting.hostId ≠ userId ∧ userId ∉ meeting.participants) := by
        rcases hallow with h1 | h1
        · intro hc
          exact hc.1 h1
        · intro hc
          exact hc.2 h1
      refine ⟨hauth hcond, by omega, by omega, ?_⟩
      intro msgs hmsgs
      rw [hauth hcond] at hmsgs
      have hmsgs2 : msgs
          = (SocketTS.sortByTs (db.messages.filter (fun msg => msg.meetingId == m))).take
              (min (max rawLimit 1) 100).toNat := by
        cases hmsgs
        rfl
      subst hmsgs2
      exact List.Pairwise.sublist (List.take_sublist _ _) (sortByTs_sorted _)

/-- A one-meeting store used to exercise the read API. -/
def exDbMeeting : Db :=
  { messages :=
      [{ id := "a1", meetingId := "m1", senderId := "u1", senderName := "Alice",
         senderAvatar := none, message := "hi", messageType := MsgType.user,
         timestamp := 7, isEdited := false, reactions := [] },
       { id := "a2", meetingId := "m1", senderId := "u1", senderName := "Alice",
         senderAvatar := none, message := "again", messageType := MsgType.user,
         timestamp := 3, isEdited := false, reactions := [] }],
    chatSessions := [],
    meetings :=
      [{ meetingId := "m1", title := "t", hostId := "h1", participants := ["u1"],
         startTime := 0, status := "active", createdAt := 0, updatedAt := 0,
         recordingId := "r" }],
    nextId := 2 }

/-- Witness for get_messages_spec: a listed participant reads m1 with a
limit of 500, clamped to 100, and receives the messages oldest first. -/
theorem get_messages_spec_witness :
    MessagesRoute.GET (some "u1") (some "m1") 500 exDbMeeting
      = MessagesRoute.GetResult.ok
          ((SocketTS.sortByTs (exDbMeeting.messages.filter (fun msg => msg.meetingId == "m1"))).take
            (min (max (500 : Int) 1) 100).toNat) :=
  (((get_messages_spec "u1" "m1" 500 exDbMeeting (by decide)).2
      { meetingId := "m1", title := "t", hostId := "h1", participants := ["u1"],
        startTime := 0, status := "active", createdAt := 0, updatedAt := 0,
        recordingId := "r" }
      (by decide)).2 (Or.inr (by decide))).1

/-- C2 (confirmed).  send_message: on successful persistence the saved
message — carrying the server-assigned id and server-assigned timestamp —
is broadcast as new_message to the whole meeting room, which delivers it
to every socket in the meeting, the sender's included; when persistence
fails, the only emission is an error event addressed to the sending socket
alone and no new_message is emitted. -/
theorem send_message_broadcast_or_error (s : ServerState)
    (m text senderId senderName : String) (av : Option String) (sid : String) :
    (SocketTS.sendMessage s true m text senderId senderName av sid
        = ({ s with db := (insertMessage s.db m senderId senderName av text.trim MsgType.user s.now).1 },
           [{ target := Target.room m,
              event := EventOut.newMessage
                (insertMessage s.db m senderId senderName av text.trim MsgType.user s.now).2 }]))
    ∧ (insertMessage s.db m senderId senderName av text.trim MsgType.user s.now).2.id
        = genId s.db.nextId
    ∧ (insertMessage s.db m senderId senderName av text.trim MsgType.user s.now).2.timestamp
        = s.now
    ∧ (insertMessage s.db m senderId senderName av text.trim MsgType.user s.now).2
        ∈ (SocketTS.sendMessage s true m text senderId senderName av sid).1.db.messages
    ∧ (∀ sid2, roomMember s m sid2 →
        emitDeliversTo (SocketTS.sendMessage s true m text senderId senderName av sid).1
          { target := Target.room m,
            event := EventOut.newMessage
              (insertMessage s.db m senderId senderName av text.trim MsgType.user s.now).2 }
          sid2)
    ∧ (SocketTS.sendMessage s false m text senderId senderName av sid
        = (s, [{ target := Target.socket sid, event := EventOut.errorEv "Failed to send message" }]))
    ∧ (∀ e ∈ (SocketTS.sendMessage s false m text senderId senderName av sid).2,
        ∀ sid2, emitDeliversTo s e sid2 → sid2 = sid) := by
  refine ⟨rfl, rfl, rfl, ?_, ?_, rfl, ?_⟩
  · simp [SocketTS.sendMessage, insertMessage]
  · intro sid2 hmem
    exact hmem
  · intro e he sid2 hdel
    simp [SocketTS.sendMessage] at he
    subst he
    exact hdel

/-- Witness for send_message_broadcast_or_error: in the joined state the
sending socket s1 is a room member and receives the room broadcast of its
own message; the failure branch emits only the error to s1. -/
theorem send_message_broadcast_or_error_witness :
    emitDeliversTo (SocketTS.sendMessage exJoined true "m1" " hello " "u1" "Alice" none "s1").1
        { target := Target.room "m1",
          event := EventOut.newMessage
            (insertMessage exJoined.db "m1" "u1" "Alice" none " hello ".trim MsgType.user
              exJoined.now).2 }
        "s1"
    ∧ SocketTS.sendMessage exJoined false "m1" " hello " "u1" "Alice" none "s1"
        = (exJoined,
           [{ target := Target.socket "s1", event := EventOut.errorEv "Failed to send message" }]) :=
  ⟨(send_message_broadcast_or_error exJoined "m1" " hello " "u1" "Alice" none "s1").2.2.2.2.1
      "s1" (by unfold roomMember; decide),
   (send_message_broadcast_or_error exJoined "m1" " hello " "u1" "Alice" none "s1").2.2.2.2.2.1⟩

theorem mem_aset_self {β : Type} (k : String) (v : β) (l : List (String × β)) :
    (k, v) ∈ aset k v l := by
  induction l with
  | nil => simp [aset]
  | cons p rest ih =>
    obtain ⟨k2, v2⟩ := p
    by_cases h : k2 = k
    · simp [aset, h]
    · simp [aset, h]
      right
      exact ih

/-- cleanupDuplicateSystemMessages only rewrites the messages collection. -/
theorem cleanup_preserves_sessions (db : Db) (m : String) :
    (SocketTS.cleanupDuplicateSystemMessages db m).chatSessions = db.chatSessions := rfl

/-- With a connection already registered for (userId, meetingId) the
socket.ts join handler returns without touching anything. -/
theorem join_noop_of_connected (s : ServerState) (m u name sid : String)
    (h : hasConnectedUser s u m = true) :
    SocketTS.joinMeeting s m u name sid = (s, []) := by
  simp [SocketTS.joinMeeting, h]

/-- C1 (corrected), amended claim: the socket.ts join handler is
idempotent exactly as the claim states — with a connection already
registered for (userId, meetingId), a second join_meeting is a NoOp (state
untouched, no broadcast), and a first join from a state without a session
leaves exactly one ChatSession record; but the socket.js handler that
server.js wires performs no such check and re-broadcasts user_joined on a
duplicate join (see the counterexample). -/
theorem ts_join_idempotent (s : ServerState) (m u name sid name2 sid2 : String) :
    (hasConnectedUser s u m = true → SocketTS.joinMeeting s m u name sid = (s, []))
    ∧ (hasConnectedUser s u m = false →
        (SocketTS.joinMeeting s m u name sid).2
            = [{ target := Target.roomExceptSender m sid, event := EventOut.userJoined u name }]
        ∧ hasConnectedUser (SocketTS.joinMeeting s m u name sid).1 u m = true
        ∧ (findSession s.db m u = none →
            sessionsFor (SocketTS.joinMeeting s m u name sid).1.db m u
              = [{ meetingId := m, userId := u, joinedAt := s.now, leftAt := none }])
        ∧ SocketTS.joinMeeting (SocketTS.joinMeeting s m u name sid).1 m u name2 sid2
            = ((SocketTS.joinMeeting s m u name sid).1, [])) := by
  constructor
  · intro h
    exact join_noop_of_connected s m u name sid h
  · intro h
    have hreg : hasConnectedUser (SocketTS.joinMeeting s m u name sid).1 u m = true := by
      simp only [SocketTS.joinMeeting, h, Bool.false_eq_true, if_false]
      unfold hasConnectedUser
      apply List.any_eq_true.2
      refine ⟨(sid, { userId := u, userName := name, socketId := sid, meetingId := m }), ?_, ?_⟩
      · exact mem_aset_self _ _ _
      · simp
    refine ⟨by simp [SocketTS.joinMeeting, h], hreg, ?_,
      join_noop_of_connected _ m u name2 sid2 hreg⟩
    intro hses
    have hfilter : s.db.chatSessions.filter
        (fun cs => cs.meetingId == m && cs.userId == u) = [] := by
      rw [List.filter_eq_nil_iff]
      intro cs hcs
      have := List.find?_eq_none.1 hses cs hcs
      simpa using this
    simp only [SocketTS.joinMeeting, h, Bool.false_eq_true, if_false]
    unfold sessionsFor
    rw [cleanup_preserves_sessions]
    unfold SocketTS.createChatSession
    rw [hses]
    simp [List.filter_append, hfilter]

/-- Witness for ts_join_idempotent: a first join of u1 into m1 succeeds
and a repeated join afterwards is a NoOp. -/
theorem ts_join_idempotent_witness :
    SocketTS.joinMeeting (SocketTS.joinMeeting exS "m1" "u1" "Alice" "s1").1 "m1" "u1" "Alice" "s2"
      = ((SocketTS.joinMeeting exS "m1" "u1" "Alice" "s1").1, [])
    ∧ sessionsFor (SocketTS.joinMeeting exS "m1" "u1" "Alice" "s1").1.db "m1" "u1"
      = [{ meetingId := "m1", userId := "u1", joinedAt := 100000, leftAt := none }] :=
  ⟨((ts_join_idempotent exS "m1" "u1" "Alice" "s1" "Alice" "s2").2 (by decide)).2.2.2,
   ((ts_join_idempotent exS "m1" "u1" "Alice" "s1" "Alice" "s2").2 (by decide)).2.2.1 (by decide)⟩

/-- exS after the socket.js join handler processed u1 joining m1 on s1. -/
def exJoinedJS : ServerState := (SocketJS.joinMeeting exS "m1" "u1" "Alice" "s1").1

/-- C1 (corrected): counterexample to the claim as stated.  In the
socket.js handler wired by server.js, with u1's connection already
registered for m1, a second join_meeting (new socket s2, no intervening
leave) is not a NoOp: a second registration is added and a second
user_joined broadcast is emitted. -/
theorem js_join_duplicate_broadcast_cx :
    hasConnectedUser exJoinedJS "u1" "m1" = true
    ∧ (SocketJS.joinMeeting exJoinedJS "m1" "u1" "Alice" "s2").2
        = [{ target := Target.roomExceptSender "m1" "s2",
             event := EventOut.userJoined "u1" "Alice" }]
    ∧ (SocketJS.joinMeeting exJoinedJS "m1" "u1" "Alice" "s2").1.connectedUsers.length = 2 := by
  decide
theorem findMeeting_setSessions (db : Db) (c : List ChatSessionRec) (m : String) :
    findMeeting { db with chatSessions := c } m = findMeeting db m := rfl

theorem find?_updateMeeting (m : String) (f : MeetingRec → MeetingRec)
    (hf : ∀ r, (f r).meetingId = r.meetingId) (l : List MeetingRec) :
    ∀ mt, l.find? (fun x => x.meetingId == m) = some mt →
      (updateMeeting m f l).find? (fun x => x.meetingId == m) = some (f mt) := by
  induction l with
  | nil => intro mt h; simp at h
  | cons x rest ih =>
    intro mt h
    by_cases hx : x.meetingId = m
    · rw [List.find?_cons_of_pos _ (by simp [hx])] at h
      obtain rfl : x = mt := Option.some.inj h
      simp only [updateMeeting]
      rw [if_pos hx]
      exact List.find?_cons_of_pos _ (by simp [hf x, hx])
    · rw [List.find?_cons_of_neg _ (by simp [hx])] at h
      simp only [updateMeeting]
      rw [if_neg hx]
      rw [List.find?_cons_of_neg _ (by simp [hx])]
      exact ih mt h

/-- An authenticated caller that is host or listed participant of an
existing meeting gets an ok answer from the read API. -/
theorem get_ok_of_authorized (u m : String) (rawLimit : Int) (db : Db)
    (hv : MessagesRoute.validMeetingId m = true) (X : MeetingRec)
    (hfind : findMeeting db m = some X)
    (hauth : X.hostId = u ∨ u ∈ X.participants) :
    MessagesRoute.GET (some u) (some m) rawLimit db
      = MessagesRoute.GetResult.ok
          ((SocketTS.sortByTs (db.messages.filter (fun msg => msg.meetingId == m))).take
            (min (max rawLimit 1) 100).toNat) := by
  have hcond : ¬(X.hostId ≠ u ∧ u ∉ X.participants) := by
    rcases hauth with h1 | h1 <;> intro hc
    · exact hc.1 h1
    · exact hc.2 h1
  simp [MessagesRoute.GET, hv, hfind, hcond]

/-- C9 (confirmed).  Every socket.js join_meeting writes the Meeting
record through createChatSession: when no Meeting exists for the
meetingId, one is created with the joiner as hostId and sole participant;
when one exists without the joiner, the joiner is appended to its
participants; when the joiner is already listed, the record is unchanged —
and in every case the joiner afterwards passes the read API's host-or-
participant authorization check. -/
theorem js_join_writes_meeting (s : ServerState) (m u name sid : String) (rawLimit : Int)
    (hv : MessagesRoute.validMeetingId m = true) :
    (SocketJS.joinMeeting s m u name sid).1.db = SocketJS.createChatSession s.db m u s.now
    ∧ (findMeeting s.db m = none →
        findMeeting (SocketJS.createChatSession s.db m u s.now) m
          = some { meetingId := m, title := "Meeting " ++ m.take 8, hostId := u,
                   participants := [u], startTime := s.now, status := "active",
                   createdAt := s.now, updatedAt := s.now,
                   recordingId := "recording-" ++ m ++ "-" ++ toString s.now })
    ∧ (∀ mt, findMeeting s.db m = some mt → u ∉ mt.participants →
        findMeeting (SocketJS.createChatSession s.db m u s.now) m
          = some { mt with participants := mt.participants ++ [u], updatedAt := s.now })
    ∧ (∀ mt, findMeeting s.db m = some mt → u ∈ mt.participants →
        findMeeting (SocketJS.createChatSession s.db m u s.now) m = some mt)
    ∧ (∀ mtAfter, findMeeting (SocketJS.createChatSession s.db m u s.now) m = some mtAfter →
        MessagesRoute.GET (some u) (some m) rawLimit (SocketJS.createChatSession s.db m u s.now)
          = MessagesRoute.GetResult.ok
              ((SocketTS.sortByTs
                  ((SocketJS.createChatSession s.db m u s.now).messages.filter
                    (fun msg => msg.meetingId == m))).take
                (min (max rawLimit 1) 100).toNat)) := by
  have hnone : findMeeting s.db m = none →
      findMeeting (SocketJS.createChatSession s.db m u s.now) m
        = some { meetingId := m, title := "Meeting " ++ m.take 8, hostId := u,
                 participants := [u], startTime := s.now, status := "active",
                 createdAt := s.now, updatedAt := s.now,
                 recordingId := "recording-" ++ m ++ "-" ++ toString s.now } := by
    intro hmt
    have hmt2 := hmt
    unfold findMeeting at hmt2
    unfold SocketJS.createChatSession
    rw [hmt]
    cases hses : findSession s.db m u
    all_goals simp only [hses]
    all_goals unfold findMeeting
    all_goals simp [List.find?_append, hmt2]
  have hadd : ∀ mt, findMeeting s.db m = some mt → u ∉ mt.participants →
      findMeeting (SocketJS.createChatSession s.db m u s.now) m
        = some { mt with participants := mt.participants ++ [u], updatedAt := s.now } := by
    intro mt hmt hnotin
    have hf : ∀ r : MeetingRec,
        MeetingRec.meetingId
          { r with
              participants := if u ∈ r.participants then r.participants else r.participants ++ [u],
              updatedAt := s.now }
          = r.meetingId := fun r => rfl
    have hmt2 := hmt
    unfold findMeeting at hmt2
    unfold SocketJS.createChatSession
    rw [hmt]
    cases hses : findSession s.db m u
    all_goals simp only [hses]
    all_goals simp only [if_neg hnotin]
    all_goals unfold findMeeting
    all_goals rw [find?_updateMeeting m _ hf s.db.meetings mt hmt2]
    all_goals simp [if_neg hnotin]
  have hkeep : ∀ mt, findMeeting s.db m = some mt → u ∈ mt.participants →
      findMeeting (SocketJS.createChatSession s.db m u s.now) m = some mt := by
    intro mt hmt hin
    unfold SocketJS.createChatSession
    rw [hmt]
    cases hses : findSession s.db m u
    all_goals simp only [hses]
    all_goals simp only [if_pos hin]
    all_goals exact hmt
  refine ⟨rfl, hnone, hadd, hkeep, ?_⟩
  intro mtAfter hAfter
  have hauth : mtAfter.hostId = u ∨ u ∈ mtAfter.participants := by
    cases hmt : findMeeting s.db m with
    | none =>
      have h2 := hnone hmt
      rw [hAfter] at h2
      cases Option.some.inj h2
      exact Or.inl rfl
    | some mt =>
      by_cases hin : u ∈ mt.participants
      · have h2 := hkeep mt hmt hin
        rw [hAfter] at h2
        cases Option.some.inj h2
        exact Or.inr hin
      · have h2 := hadd mt hmt hin
        rw [hAfter] at h2
        cases Option.some.inj h2
        exact Or.inr (by simp)
  exact get_ok_of_authorized u m rawLimit _ hv mtAfter hAfter hauth

/-- Witness for js_join_writes_meeting: joining fresh m1 creates the
Meeting record with u1 as host and sole participant, and u1 can then read
the (empty) history. -/
theorem js_join_writes_meeting_witness :
    findMeeting (SocketJS.createChatSession exDb "m1" "u1" 100000) "m1"
      = some { meetingId := "m1", title := "Meeting " ++ "m1".take 8, hostId := "u1",
               participants := ["u1"], startTime := 100000, status := "active",
               createdAt := 100000, updatedAt := 100000,
               recordingId := "recording-" ++ "m1" ++ "-" ++ toString 100000 }
    ∧ MessagesRoute.GET (some "u1") (some "m1") 50 (SocketJS.createChatSession exDb "m1" "u1" 100000)
        = MessagesRoute.GetResult.ok
            ((SocketTS.sortByTs
                ((SocketJS.createChatSession exDb "m1" "u1" 100000).messages.filter
                  (fun msg => msg.meetingId == "m1"))).take
              (min (max (50 : Int) 1) 100).toNat) := by
  have h1 := (js_join_writes_meeting exS "m1" "u1" "Alice" "s1" 50 (by decide)).2.1 (by decide)
  have h2 := (js_join_writes_meeting exS "m1" "u1" "Alice" "s1" 50 (by decide)).2.2.2.2 _ h1
  exact ⟨h1, h2⟩

/-- updateOne {_id: messageId} matches nothing when no stored message has
that id, and then changes nothing. -/
theorem pushReaction_not_found (messageId : String) (r : Reaction) (l : List StoredMessage)
    (h : ∀ msg ∈ l, msg.id ≠ messageId) : pushReaction messageId r l = l := by
  induction l with
  | nil => rfl
  | cons msg rest ih =>
    have hm : msg.id ≠ messageId := h msg (List.mem_cons_self _ _)
    simp only [pushReaction, if_neg hm]
    rw [ih (fun m2 hm2 => h m2 (List.mem_cons_of_mem _ hm2))]

/-- updateOne {_id: messageId} appends the reaction to the single matching
message and leaves every other message unchanged. -/
theorem pushReaction_found (messageId : String) (r : Reaction)
    (pre post : List StoredMessage) (msg : StoredMessage)
    (hid : msg.id = messageId) (hpre : ∀ m2 ∈ pre, m2.id ≠ messageId) :
    pushReaction messageId r (pre ++ msg :: post)
      = pre ++ { msg with reactions := msg.reactions ++ [r] } :: post := by
  induction pre with
  | nil => simp [pushReaction, hid]
  | cons p rest ih =>
    have hp : p.id ≠ messageId := hpre p (List.mem_cons_self _ _)
    simp only [List.cons_append, pushReaction, if_neg hp, List.append_eq]
    rw [ih (fun m2 hm2 => hpre m2 (List.mem_cons_of_mem _ hm2))]

/-- C6 (corrected): counterexample to the claim as stated.  The id is a
well-formed ObjectId identifying no persisted message (the store is
empty), yet the registered submitter receives no error and the
message_reaction broadcast to the whole room does occur. -/
theorem react_unknown_id_broadcast_cx :
    (∀ msg ∈ exJoined.db.messages, msg.id ≠ "aaaaaaaaaaaaaaaaaaaaaaaa")
    ∧ isValidObjectId "aaaaaaaaaaaaaaaaaaaaaaaa" = true
    ∧ (SocketTS.reactToMessage exJoined "aaaaaaaaaaaaaaaaaaaaaaaa" "u1" "like" "s1").2
        = [{ target := Target.room "m1",
             event := EventOut.messageReaction "aaaaaaaaaaaaaaaaaaaaaaaa"
               { userId := "u1", emoji := "like", timestamp := 100000 } }] := by
  decide

/-- C6 (corrected), amended claim: a malformed messageId (ObjectId
construction throws) yields an error to the submitter only and no
broadcast; a well-formed messageId is pushed through updateOne — appending
the reaction to the matching message, or silently matching nothing when
the id identifies no persisted message — and in either case the reaction
is broadcast to the registered submitter's meeting room without any
error. -/
theorem react_to_message_behavior (s : ServerState) (messageId u emoji sid : String) :
    (isValidObjectId messageId = false →
      SocketTS.reactToMessage s messageId u emoji sid
        = (s, [{ target := Target.socket sid, event := EventOut.errorEv "Failed to add reaction" }]))
    ∧ (isValidObjectId messageId = true →
        (SocketTS.reactToMessage s messageId u emoji sid).1.db.messages
            = pushReaction messageId { userId := u, emoji := emoji, timestamp := s.now }
                s.db.messages
        ∧ ((∀ msg ∈ s.db.messages, msg.id ≠ messageId) →
            (SocketTS.reactToMessage s messageId u emoji sid).1.db.messages = s.db.messages)
        ∧ (∀ pre post msg, s.db.messages = pre ++ msg :: post → msg.id = messageId →
            (∀ m2 ∈ pre, m2.id ≠ messageId) →
            (SocketTS.reactToMessage s messageId u emoji sid).1.db.messages
              = pre ++ { msg with reactions :=
                  msg.reactions ++ [{ userId := u, emoji := emoji, timestamp := s.now }] } :: post)
        ∧ (∀ user, alookup sid s.connectedUsers = some user →
            (SocketTS.reactToMessage s messageId u emoji sid).2
              = [{ target := Target.room user.meetingId,
                   event := EventOut.messageReaction messageId
                     { userId := u, emoji := emoji, timestamp := s.now } }])
        ∧ (alookup sid s.connectedUsers = none →
            (SocketTS.reactToMessage s messageId u emoji sid).2 = [])) := by
  constructor
  · intro h
    simp [SocketTS.reactToMessage, h]
  · intro h
    refine ⟨by simp [SocketTS.reactToMessage, h], ?_, ?_, ?_, ?_⟩
    · intro hnone
      simp only [SocketTS.reactToMessage, h, if_pos rfl]
      exact pushReaction_not_found _ _ _ hnone
    · intro pre post msg hsplit hid hpre
      simp only [SocketTS.reactToMessage, h, if_pos rfl]
      rw [hsplit]
      exact pushReaction_found _ _ _ _ _ hid hpre
    · intro user huser
      simp [SocketTS.reactToMessage, h, huser]
    · intro hnone
      simp [SocketTS.reactToMessage, h, hnone]

/-- Witness for react_to_message_behavior: the malformed id "bad" produces
exactly the error emission, and a well-formed unknown id leaves the empty
store unchanged. -/
theorem react_to_message_behavior_witness :
    SocketTS.reactToMessage exJoined "bad" "u1" "like" "s1"
      = (exJoined,
         [{ target := Target.socket "s1", event := EventOut.errorEv "Failed to add reaction" }])
    ∧ (SocketTS.reactToMessage exJoined "aaaaaaaaaaaaaaaaaaaaaaaa" "u1" "like" "s1").1.db.messages
        = exJoined.db.messages :=
  ⟨(react_to_message_behavior exJoined "bad" "u1" "like" "s1").1 (by decide),
   ((react_to_message_behavior exJoined "aaaaaaaaaaaaaaaaaaaaaaaa" "u1" "like" "s1").2
      (by decide)).2.1 (by decide)⟩

/-- The system-message text synthesized by the participant_status_update
handler for the given status. -/
def statusText (status u : String) (userName : Option String) : String :=
  (userName.getD u) ++ (if status = "joined" then " joined the meeting" else " left the meeting")

/-- C3 (confirmed).  Presence dedup: starting with no recorded update for
the (meetingId, userId, status) key, the user not chat-connected (for a
join), and no identical persisted system message inside the 30s window, a
participant_status_update persists and broadcasts exactly one system
message; a second identical event within 10 seconds is a NoOp — nothing
persisted, nothing broadcast, and the recorded timestamp for the key keeps
the first call's time. -/
theorem presence_dedup_window (s : ServerState) (m u status : String)
    (userName : Option String) (t2 : Nat)
    (hstat : status = "joined" ∨ status = "left")
    (hconn : status = "joined" → hasConnectedUser s u m = false)
    (hrec : alookup (m ++ ":" ++ u ++ ":" ++ status) s.recentStatusUpdates = none)
    (hmsg : s.db.messages.find? (fun msg =>
        msg.meetingId == m && msg.messageType == MsgType.system &&
        msg.message == statusText status u userName && msg.senderId == "system" &&
        msg.timestamp + 30000 ≥ s.now) = none)
    (ht : t2 - s.now < 10000) :
    ((SocketTS.participantStatusUpdate s m u status userName).2
        = [{ target := Target.room m,
             event := EventOut.newMessage
               (insertMessage s.db m "system" "System" none (statusText status u userName)
                 MsgType.system s.now).2 }])
    ∧ (SocketTS.participantStatusUpdate s m u status userName).1.db.messages
        = s.db.messages ++ [(insertMessage s.db m "system" "System" none
            (statusText status u userName) MsgType.system s.now).2]
    ∧ SocketTS.participantStatusUpdate
        { (SocketTS.participantStatusUpdate s m u status userName).1 with now := t2 }
        m u status userName
      = ({ (SocketTS.participantStatusUpdate s m u status userName).1 with now := t2 }, [])
    ∧ alookup (m ++ ":" ++ u ++ ":" ++ status)
        (SocketTS.participantStatusUpdate s m u status userName).1.recentStatusUpdates
      = some { userId := u, timestamp := s.now } := by
  have hkey : SocketTS.participantStatusUpdate s m u status userName
      = ({ s with
            recentStatusUpdates :=
              aset (m ++ ":" ++ u ++ ":" ++ status) { userId := u, timestamp := s.now }
                s.recentStatusUpdates,
            db := (insertMessage s.db m "system" "System" none (statusText status u userName)
              MsgType.system s.now).1 },
         [{ target := Target.room m,
            event := EventOut.newMessage
              (insertMessage s.db m "system" "System" none (statusText status u userName)
                MsgType.system s.now).2 }]) := by
    rcases hstat with h | h <;> subst h
    · have hcf := hconn rfl
      have hmsg2 : List.find? (fun msg =>
          msg.meetingId == m && msg.messageType == MsgType.system &&
                msg.message == userName.getD u ++ " joined the meeting" &&
              msg.senderId == "system" &&
            decide (s.now ≤ msg.timestamp + 30000)) s.db.messages = none := by
        simpa [statusText] using hmsg
      simp [SocketTS.participantStatusUpdate, hrec, hcf, SocketTS.broadcastSystemMessage,
        statusText, hmsg2]
    · have hne : ("left" : String) ≠ "joined" := by decide
      have hmsg2 : List.find? (fun msg =>
          msg.meetingId == m && msg.messageType == MsgType.system &&
                msg.message == userName.getD u ++ " left the meeting" &&
              msg.senderId == "system" &&
            decide (s.now ≤ msg.timestamp + 30000)) s.db.messages = none := by
        simpa [statusText, hne] using hmsg
      simp [SocketTS.participantStatusUpdate, hrec, hne, SocketTS.broadcastSystemMessage,
        statusText, hmsg2]
  refine ⟨by rw [hkey], by rw [hkey]; simp [insertMessage], ?_, ?_⟩
  · rw [hkey]
    simp only [SocketTS.participantStatusUpdate, alookup_aset_self]
    simp [ht]
  · rw [hkey]
    exact alookup_aset_self _ _ _

/-- Witness for presence_dedup_window: Bob's media-engine join is reported
twice within 5 seconds; the second report is a NoOp. -/
theorem presence_dedup_window_witness :
    SocketTS.participantStatusUpdate
        { (SocketTS.participantStatusUpdate exS "m1" "u2" "joined" (some "Bob")).1 with
            now := 105000 }
        "m1" "u2" "joined" (some "Bob")
      = ({ (SocketTS.participantStatusUpdate exS "m1" "u2" "joined" (some "Bob")).1 with
            now := 105000 }, []) :=
  (presence_dedup_window exS "m1" "u2" "joined" (some "Bob") 105000
      (Or.inl rfl) (fun _ => by decide) (by decide) (by decide) (by decide)).2.2.1

/-- The survivors of the duplicate scan: the first occurrence of each
(message, senderId) key, walking the same order as dupScan. -/
def keepFirst : List StoredMessage → List String → List StoredMessage
  | [], _ => []
  | msg :: rest, seen =>
    let key := msg.message ++ ":" ++ msg.senderId
    if key ∈ seen then keepFirst rest seen
    else msg :: keepFirst rest (key :: seen)

theorem keepFirst_sub (l : List StoredMessage) (seen : List String) (x : StoredMessage)
    (h : x ∈ keepFirst l seen) : x ∈ l := by
  induction l generalizing seen with
  | nil => simp [keepFirst] at h
  | cons msg rest ih =>
    simp only [keepFirst] at h
    by_cases hk : (msg.message ++ ":" ++ msg.senderId) ∈ seen
    · rw [if_pos hk] at h
      exact List.mem_cons_of_mem _ (ih _ h)
    · rw [if_neg hk] at h
      rcases List.mem_cons.1 h with h1 | h1
      · exact h1 ▸ List.mem_cons_self _ _
      · exact List.mem_cons_of_mem _ (ih _ h1)

theorem dupScan_subset_ids (l : List StoredMessage) (seen : List String) (y : String)
    (h : y ∈ SocketTS.dupScan l seen) : y ∈ l.map (fun x => x.id) := by
  induction l generalizing seen with
  | nil => simp [SocketTS.dupScan] at h
  | cons msg rest ih =>
    simp only [SocketTS.dupScan] at h
    by_cases hk : (msg.message ++ ":" ++ msg.senderId) ∈ seen
    · rw [if_pos hk] at h
      rcases List.mem_cons.1 h with h1 | h1
      · simp [h1]
      · simpa using Or.inr (ih _ h1)
    · rw [if_neg hk] at h
      simpa using Or.inr (ih _ h)

theorem keepFirst_key_not_seen (l : List StoredMessage) (seen : List String) (x : StoredMessage)
    (h : x ∈ keepFirst l seen) : (x.message ++ ":" ++ x.senderId) ∉ seen := by
  induction l generalizing seen with
  | nil => simp [keepFirst] at h
  | cons msg rest ih =>
    simp only [keepFirst] at h
    by_cases hk : (msg.message ++ ":" ++ msg.senderId) ∈ seen
    · rw [if_pos hk] at h
      exact ih _ h
    · rw [if_neg hk] at h
      rcases List.mem_cons.1 h with h1 | h1
      · rw [h1]
        exact hk
      · have h2 := ih _ h1
        intro hmem
        exact h2 (List.mem_cons_of_mem _ hmem)

theorem dupScan_iff_not_keepFirst (l : List StoredMessage) (seen : List String)
    (hnd : (l.map (fun x => x.id)).Nodup) :
    ∀ x ∈ l, (x.id ∈ SocketTS.dupScan l seen ↔ x ∉ keepFirst l seen) := by
  induction l generalizing seen with
  | nil => intro x hx; simp at hx
  | cons msg rest ih =>
    rw [List.map_cons] at hnd
    have hmsgid : msg.id ∉ rest.map (fun x => x.id) := (List.nodup_cons.1 hnd).1
    have hnd2 : (rest.map (fun x => x.id)).Nodup := (List.nodup_cons.1 hnd).2
    intro x hx
    by_cases hk : (msg.message ++ ":" ++ msg.senderId) ∈ seen
    · have hd : SocketTS.dupScan (msg :: rest) seen = msg.id :: SocketTS.dupScan rest seen := by
        simp [SocketTS.dupScan, hk]
      have hkf : keepFirst (msg :: rest) seen = keepFirst rest seen := by
        simp [keepFirst, hk]
      rw [hd, hkf]
      rcases List.mem_cons.1 hx with h1 | h1
      · subst h1
        constructor
        · intro _ hkeep
          exact hmsgid (List.mem_map.2 ⟨x, keepFirst_sub _ _ _ hkeep, rfl⟩)
        · intro _
          exact List.mem_cons_self _ _
      · have hxid : x.id ≠ msg.id := fun he => hmsgid (he ▸ List.mem_map.2 ⟨x, h1, rfl⟩)
        rw [List.mem_cons]
        constructor
        · intro h2
          rcases h2 with h2 | h2
          · exact absurd h2 hxid
          · exact (ih seen hnd2 x h1).1 h2
        · intro h2
          exact Or.inr ((ih seen hnd2 x h1).2 h2)
    · have hd : SocketTS.dupScan (msg :: rest) seen
          = SocketTS.dupScan rest ((msg.message ++ ":" ++ msg.senderId) :: seen) := by
        simp [SocketTS.dupScan, hk]
      have hkf : keepFirst (msg :: rest) seen
          = msg :: keepFirst rest ((msg.message ++ ":" ++ msg.senderId) :: seen) := by
        simp [keepFirst, hk]
      rw [hd, hkf]
      rcases List.mem_cons.1 hx with h1 | h1
      · subst h1
        constructor
        · intro h2
          exact absurd (dupScan_subset_ids rest _ _ h2) hmsgid
        · intro h2
          exact absurd (List.mem_cons_self _ _) h2
      · have hxmsg : x ≠ msg := by
          intro he
          exact hmsgid (List.mem_map.2 ⟨x, h1, by rw [he]⟩)
        rw [List.mem_cons]
        constructor
        · intro h2 hmem
          rcases hmem with he | hmem
          · exact hxmsg he
          · exact (ih _ hnd2 x h1).1 h2 hmem
        · intro h2
          apply (ih _ hnd2 x h1).2
          intro hmem
          exact h2 (Or.inr hmem)

theorem keepFirst_earliest (l : List StoredMessage) (seen : List String)
    (hsort : l.Pairwise (fun a b => a.timestamp ≤ b.timestamp)) :
    ∀ x ∈ keepFirst l seen, ∀ y ∈ l,
      y.message ++ ":" ++ y.senderId = x.message ++ ":" ++ x.senderId →
      x.timestamp ≤ y.timestamp := by
  induction l generalizing seen with
  | nil => intro x hx; simp [keepFirst] at hx
  | cons msg rest ih =>
    have hple := (List.pairwise_cons.1 hsort).1
    have hrest := (List.pairwise_cons.1 hsort).2
    intro x hx y hy hkey
    by_cases hk : (msg.message ++ ":" ++ msg.senderId) ∈ seen
    · have hkf : keepFirst (msg :: rest) seen = keepFirst rest seen := by
        simp [keepFirst, hk]
      rw [hkf] at hx
      have hxnot := keepFirst_key_not_seen rest seen x hx
      rcases List.mem_cons.1 hy with h1 | h1
      · subst h1
        exact absurd (hkey ▸ hk) hxnot
      · exact ih seen hrest x hx y h1 hkey
    · have hkf : keepFirst (msg :: rest) seen
          = msg :: keepFirst rest ((msg.message ++ ":" ++ msg.senderId) :: seen) := by
        simp [keepFirst, hk]
      rw [hkf] at hx
      rcases List.mem_cons.1 hx with h1 | h1
      · subst h1
        rcases List.mem_cons.1 hy with h2 | h2
        · rw [h2]
        · exact hple y h2
      · rcases List.mem_cons.1 hy with h2 | h2
        · have hxnot := keepFirst_key_not_seen rest _ x h1
          subst h2
          exact absurd (by rw [hkey]; exact List.mem_cons_self _ _) hxnot
        · exact ih _ hrest x h1 y h2 hkey

/-- The socket.ts createChatSession writes only the chat_sessions
collection. -/
theorem createChatSession_preserves_messages (db : Db) (m u : String) (now : Nat) :
    (SocketTS.createChatSession db m u now).messages = db.messages := by
  unfold SocketTS.createChatSession
  cases findSession db m u <;> rfl

/-- What cleanupDuplicateSystemMessages keeps: a stored message survives
iff it is not a system message of the meeting, or it is the first
occurrence of its (message, senderId) key in the timestamp-sorted system
messages of the meeting. -/
theorem cleanup_characterization (db : Db) (m : String)
    (hnd : (db.messages.map (fun x => x.id)).Nodup) :
    ∀ msg ∈ db.messages,
      (msg ∈ (SocketTS.cleanupDuplicateSystemMessages db m).messages
        ↔ (¬(msg.meetingId = m ∧ msg.messageType = MsgType.system)
           ∨ msg ∈ keepFirst (SocketTS.sortByTs (db.messages.filter
                (fun x => x.meetingId == m && x.messageType == MsgType.system))) [])) := by
  intro msg hmsg
  have hperm : (SocketTS.sortByTs (db.messages.filter
      (fun x => x.meetingId == m && x.messageType == MsgType.system))).Perm
      (db.messages.filter (fun x => x.meetingId == m && x.messageType == MsgType.system)) :=
    List.mergeSort_perm _ _
  have hndfilter : ((db.messages.filter
      (fun x => x.meetingId == m && x.messageType == MsgType.system)).map
        (fun x => x.id)).Nodup :=
    List.Nodup.sublist (List.Sublist.map _ (List.filter_sublist _)) hnd
  have hndsorted : ((SocketTS.sortByTs (db.messages.filter
      (fun x => x.meetingId == m && x.messageType == MsgType.system))).map
        (fun x => x.id)).Nodup :=
    (hperm.symm.map _).nodup hndfilter
  unfold SocketTS.cleanupDuplicateSystemMessages
  by_cases hsys : msg.meetingId = m ∧ msg.messageType = MsgType.system
  · have hmem_sorted : msg ∈ SocketTS.sortByTs (db.messages.filter
        (fun x => x.meetingId == m && x.messageType == MsgType.system)) := by
      unfold SocketTS.sortByTs
      rw [List.mem_mergeSort]
      exact List.mem_filter.2 ⟨hmsg, by simp [hsys.1, hsys.2]⟩
    have hiff := dupScan_iff_not_keepFirst _ [] hndsorted msg hmem_sorted
    have hiff2 := not_congr hiff
    rw [not_not] at hiff2
    simp only [List.mem_filter, decide_not]
    constructor
    · intro h2
      exact Or.inr (hiff2.1 (by simpa using h2.2))
    · intro h2
      rcases h2 with h2 | h2
      · exact absurd hsys h2
      · exact ⟨hmsg, by simpa using hiff2.2 h2⟩
  · have hnotdup : msg.id ∉ SocketTS.dupScan (SocketTS.sortByTs (db.messages.filter
        (fun x => x.meetingId == m && x.messageType == MsgType.system))) [] := by
      intro hin
      rcases List.mem_map.1 (dupScan_subset_ids _ [] _ hin) with ⟨y, hy, hyid⟩
      have hy2 : y ∈ db.messages.filter
          (fun x => x.meetingId == m && x.messageType == MsgType.system) := by
        have : y ∈ SocketTS.sortByTs (db.messages.filter
            (fun x => x.meetingId == m && x.messageType == MsgType.system)) := hy
        unfold SocketTS.sortByTs at this
        exact List.mem_mergeSort.1 this
      have hy3 := List.mem_filter.1 hy2
      have hym : y = msg := List.inj_on_of_nodup_map hnd hy3.1 hmsg hyid
      apply hsys
      rw [← hym]
      constructor
      · have := hy3.2
        simp at this
        exact this.1
      · have := hy3.2
        simp at this
        exact this.2
    simp only [List.mem_filter, decide_not]
    constructor
    · intro _
      exact Or.inl hsys
    · intro _
      exact ⟨hmsg, by simpa using hnotdup⟩

/-- C10 (confirmed).  On every successful join_meeting the server applies
cleanupDuplicateSystemMessages to the whole persisted history of the
meeting: grouping the meeting's system messages by (message text,
senderId), only the first occurrence in timestamp-sorted order survives —
every later occurrence, of any age (no time window restricts the scan), is
permanently deleted; non-system messages and other meetings' messages are
untouched, and every survivor has minimal timestamp within its key
group. -/
theorem join_cleanup_dedup (s : ServerState) (m u name sid : String)
    (hjoin : hasConnectedUser s u m = false)
    (hnd : (s.db.messages.map (fun x => x.id)).Nodup) :
    ((SocketTS.joinMeeting s m u name sid).1.db
        = SocketTS.cleanupDuplicateSystemMessages (SocketTS.createChatSession s.db m u s.now) m)
    ∧ (∀ msg ∈ s.db.messages,
        (msg ∈ (SocketTS.joinMeeting s m u name sid).1.db.messages
          ↔ (¬(msg.meetingId = m ∧ msg.messageType = MsgType.system)
             ∨ msg ∈ keepFirst (SocketTS.sortByTs (s.db.messages.filter
                  (fun x => x.meetingId == m && x.messageType == MsgType.system))) [])))
    ∧ (∀ x ∈ keepFirst (SocketTS.sortByTs (s.db.messages.filter
          (fun x2 => x2.meetingId == m && x2.messageType == MsgType.system))) [],
        ∀ y ∈ SocketTS.sortByTs (s.db.messages.filter
          (fun x2 => x2.meetingId == m && x2.messageType == MsgType.system)),
        y.message ++ ":" ++ y.senderId = x.message ++ ":" ++ x.senderId →
        x.timestamp ≤ y.timestamp) := by
  have hjdb : (SocketTS.joinMeeting s m u name sid).1.db
      = SocketTS.cleanupDuplicateSystemMessages (SocketTS.createChatSession s.db m u s.now) m := by
    simp [SocketTS.joinMeeting, hjoin]
  have hpres := createChatSession_preserves_messages s.db m u s.now
  refine ⟨hjdb, ?_, ?_⟩
  · intro msg hmsg
    rw [hjdb]
    have hnd2 : ((SocketTS.createChatSession s.db m u s.now).messages.map
        (fun x => x.id)).Nodup := by
      rw [hpres]
      exact hnd
    have hchar := cleanup_characterization (SocketTS.createChatSession s.db m u s.now) m hnd2
        msg (by rw [hpres]; exact hmsg)
    rw [hpres] at hchar
    exact hchar
  · exact keepFirst_earliest _ [] (sortByTs_sorted _)

/-- A store holding a duplicated system message for m1. -/
def exDbDup : Db :=
  { messages :=
      [{ id := "a", meetingId := "m1", senderId := "system", senderName := "System",
         senderAvatar := none, message := "Bob joined the meeting", messageType := MsgType.system,
         timestamp := 5, isEdited := false, reactions := [] },
       { id := "b", meetingId := "m1", senderId := "system", senderName := "System",
         senderAvatar := none, message := "Bob joined the meeting", messageType := MsgType.system,
         timestamp := 3, isEdited := false, reactions := [] },
       { id := "c", meetingId := "m1", senderId := "u9", senderName := "U",
         senderAvatar := none, message := "hello", messageType := MsgType.user,
         timestamp := 1, isEdited := false, reactions := [] }],
    chatSessions := [], meetings := [], nextId := 3 }

/-- exS over the duplicated store. -/
def exSDup : ServerState := { exS with db := exDbDup }

/-- Witness for join_cleanup_dedup: joining m1 over the duplicated store
rewrites the database through the duplicate cleanup. -/
theorem join_cleanup_dedup_witness :
    (SocketTS.joinMeeting exSDup "m1" "u1" "Alice" "s1").1.db
      = SocketTS.cleanupDuplicateSystemMessages
          (SocketTS.createChatSession exDbDup "m1" "u1" 100000) "m1" :=
  (join_cleanup_dedup exSDup "m1" "u1" "Alice" "s1" (by decide) (by decide)).1

/-- The predicate selecting the active expiry tasks of (m, u). -/
def typingPred (m u : String) (t : TimerRec) : Bool :=
  t.active && t.meetingId == m && t.userId == u

theorem activeTimersFor_eq (s : ServerState) (m u : String) :
    activeTimersFor s m u = s.timers.filter (typingPred m u) := rfl

theorem filter_cancel_nil (m u : String) (tid2 : Nat) (l : List TimerRec)
    (h : l.filter (typingPred m u) = []) :
    (cancelTimer tid2 l).filter (typingPred m u) = [] := by
  rw [List.filter_eq_nil_iff] at h ⊢
  intro t ht
  unfold cancelTimer at ht
  rcases List.mem_map.1 ht with ⟨t0, ht0, hmap⟩
  by_cases hid : t0.id = tid2
  · rw [if_pos hid] at hmap
    rw [← hmap]
    simp [typingPred]
  · rw [if_neg hid] at hmap
    rw [← hmap]
    exact h t0 ht0

theorem filter_cancel_of_only (m u : String) (tid : Nat) (l : List TimerRec)
    (h : ∀ t ∈ l, typingPred m u t = true → t.id = tid) :
    (cancelTimer tid l).filter (typingPred m u) = [] := by
  rw [List.filter_eq_nil_iff]
  intro t ht
  unfold cancelTimer at ht
  rcases List.mem_map.1 ht with ⟨t0, ht0, hmap⟩
  by_cases hid : t0.id = tid
  · rw [if_pos hid] at hmap
    rw [← hmap]
    simp [typingPred]
  · rw [if_neg hid] at hmap
    rw [← hmap]
    intro hp
    exact hid (h t0 ht0 hp)

theorem filter_cancel_ne (m u : String) (tid2 : Nat) (l : List TimerRec)
    (h : ∀ t ∈ l, typingPred m u t = true → t.id ≠ tid2) :
    (cancelTimer tid2 l).filter (typingPred m u) = l.filter (typingPred m u) := by
  induction l with
  | nil => rfl
  | cons t rest ih =>
    have hrest := ih (fun t2 ht2 hp => h t2 (List.mem_cons_of_mem _ ht2) hp)
    unfold cancelTimer at hrest ⊢
    by_cases hid : t.id = tid2
    · have hp : typingPred m u t = false := by
        cases hpt : typingPred m u t
        · rfl
        · exact absurd hid (h t (List.mem_cons_self _ _) hpt)
      have hp2 : typingPred m u { t with active := false } = false := by
        simp [typingPred]
      simp only [List.map_cons, if_pos hid, List.filter_cons, hp, hp2]
      simpa using hrest
    · simp only [List.map_cons, if_neg hid, List.filter_cons]
      cases hpt : typingPred m u t
      · simpa using hrest
      · simpa [hpt] using hrest

theorem find?_id_cancel_ne (tid tid2 : Nat) (l : List TimerRec) (h : tid ≠ tid2) :
    (cancelTimer tid2 l).find? (fun t => t.id == tid) = l.find? (fun t => t.id == tid) := by
  induction l with
  | nil => rfl
  | cons t rest ih =>
    unfold cancelTimer at ih ⊢
    by_cases hid : t.id = tid
    · have hne : t.id ≠ tid2 := by rw [hid]; exact h
      simp only [List.map_cons, if_neg hne]
      rw [List.find?_cons_of_pos _ (by simp [hid]), List.find?_cons_of_pos _ (by simp [hid])]
    · by_cases hid2 : t.id = tid2
      · simp only [List.map_cons, if_pos hid2]
        rw [List.find?_cons_of_neg _ (by simp [hid]), List.find?_cons_of_neg _ (by simp [hid])]
        exact ih
      · simp only [List.map_cons, if_neg hid2]
        rw [List.find?_cons_of_neg _ (by simp [hid]), List.find?_cons_of_neg _ (by simp [hid])]
        exact ih

theorem find?_id_cancel_none (tid tid2 : Nat) (l : List TimerRec)
    (h : l.find? (fun t => t.id == tid) = none) :
    (cancelTimer tid2 l).find? (fun t => t.id == tid) = none := by
  rw [List.find?_eq_none] at h ⊢
  intro t ht
  unfold cancelTimer at ht
  rcases List.mem_map.1 ht with ⟨t0, ht0, hmap⟩
  have h0 := h t0 ht0
  by_cases hid : t0.id = tid2
  · rw [if_pos hid] at hmap
    rw [← hmap]
    simpa using by simpa using h0
  · rw [if_neg hid] at hmap
    rw [← hmap]
    exact h0

/-- (m, u) is Idle: no typing entry and no active expiry task. -/
def typingIdleFor (s : ServerState) (m u : String) : Prop :=
  typingEntry s m u = none ∧ activeTimersFor s m u = []

/-- (m, u) is Typing with exactly one pending expiry task tid due at ft:
the stored entry references tid, tid is the only active (m, u) task, and
looking tid up among the scheduled tasks yields that task. -/
def typingArmedFor (s : ServerState) (m u name : String) (tid ft : Nat) : Prop :=
  typingEntry s m u = some { userId := u, userName := name, timer := tid }
  ∧ activeTimersFor s m u
      = [{ id := tid, meetingId := m, userId := u, fireAt := ft, active := true }]
  ∧ s.timers.find? (fun t => t.id == tid)
      = some { id := tid, meetingId := m, userId := u, fireAt := ft, active := true }

/-- No typing entry other than (m, u)'s references the task tid. -/
def entryTimerUnique (s : ServerState) (m u : String) (tid : Nat) : Prop :=
  ∀ p ∈ s.typingUsers, ∀ q ∈ p.2, q.2.timer = tid → p.1 = m ∧ q.1 = u

theorem handleTypingStop_none1 (s : ServerState) (m u : String)
    (halm : alookup m s.typingUsers = none) :
    SocketTS.handleTypingStop s m u = (s, []) := by
  unfold SocketTS.handleTypingStop
  rw [halm]

theorem handleTypingStop_none2 (s : ServerState) (m u : String)
    (tmap : List (String × TypingEntry))
    (halm : alookup m s.typingUsers = some tmap) (hau : alookup u tmap = none) :
    SocketTS.handleTypingStop s m u = (s, []) := by
  unfold SocketTS.handleTypingStop
  simp only [halm, hau]

theorem handleTypingStop_entry (s : ServerState) (m u : String)
    (tmap : List (String × TypingEntry)) (entry : TypingEntry)
    (halm : alookup m s.typingUsers = some tmap) (hau : alookup u tmap = some entry) :
    SocketTS.handleTypingStop s m u
      = ({ s with
            timers := cancelTimer entry.timer s.timers,
            typingUsers := aset m (adel u tmap) s.typingUsers },
         [{ target := Target.room m, event := EventOut.userStoppedTyping u }]) := by
  unfold SocketTS.handleTypingStop
  simp only [halm, hau]

theorem timerFire_none (s : ServerState) (tid2 τ : Nat)
    (hfind : s.timers.find? (fun t => t.id == tid2) = none) :
    SocketTS.timerFire s tid2 τ = (s, []) := by
  unfold SocketTS.timerFire
  rw [hfind]

theorem timerFire_skip (s : ServerState) (tid2 τ : Nat) (t : TimerRec)
    (hfind : s.timers.find? (fun t2 => t2.id == tid2) = some t)
    (hg : ¬(t.active = true ∧ t.fireAt ≤ τ)) :
    SocketTS.timerFire s tid2 τ = (s, []) := by
  unfold SocketTS.timerFire
  simp only [hfind]
  rw [if_neg hg]

theorem timerFire_found (s : ServerState) (tid2 τ : Nat) (t : TimerRec)
    (hfind : s.timers.find? (fun t2 => t2.id == tid2) = some t)
    (hact : t.active = true) (hle : t.fireAt ≤ τ) :
    SocketTS.timerFire s tid2 τ
      = SocketTS.handleTypingStop
          { s with timers := cancelTimer tid2 s.timers, now := τ } t.meetingId t.userId := by
  unfold SocketTS.timerFire
  simp only [hfind]
  rw [if_pos ⟨hact, hle⟩]

theorem cancelTimer_inactive (tid0 : Nat) (l : List TimerRec) :
    ∀ t ∈ cancelTimer tid0 l, t.id = tid0 → t.active = false := by
  intro t ht hid
  unfold cancelTimer at ht
  rcases List.mem_map.1 ht with ⟨t0, _, hmap⟩
  by_cases h0 : t0.id = tid0
  · rw [if_pos h0] at hmap
    rw [← hmap]
  · rw [if_neg h0] at hmap
    rw [← hmap] at hid
    exact absurd hid h0

/-- stopEmits splits over concatenation. -/
theorem stopEmits_append (m u : String) (a b : List Emit) :
    stopEmits m u (a ++ b) = stopEmits m u a ++ stopEmits m u b :=
  List.filter_append _ _

theorem timerFire_success (s : ServerState) (m u name0 : String) (tid ft : Nat)
    (harm : typingArmedFor s m u name0 tid ft) (τ : Nat) (hτ : ft ≤ τ) :
    (SocketTS.timerFire s tid τ).2
        = [{ target := Target.room m, event := EventOut.userStoppedTyping u }]
    ∧ activeTimersFor (SocketTS.timerFire s tid τ).1 m u = [] := by
  obtain ⟨hent, hact, hfind⟩ := harm
  cases halm : alookup m s.typingUsers with
  | none =>
    exfalso
    have h2 : typingEntry s m u = none := by simp [typingEntry, halm, alookup]
    exact Option.noConfusion (hent.symm.trans h2)
  | some tmap =>
    have hau : alookup u tmap = some { userId := u, userName := name0, timer := tid } := by
      simpa [typingEntry, halm] using hent
    have honly : ∀ t ∈ s.timers, typingPred m u t = true → t.id = tid := by
      intro t ht hp
      have hmem : t ∈ activeTimersFor s m u := by
        rw [activeTimersFor_eq]
        exact List.mem_filter.2 ⟨ht, hp⟩
      rw [hact] at hmem
      rw [List.mem_singleton.1 hmem]
    rw [timerFire_found s tid τ _ hfind rfl hτ]
    dsimp only
    rw [handleTypingStop_entry { s with timers := cancelTimer tid s.timers, now := τ }
      m u tmap _ halm hau]
    refine ⟨rfl, ?_⟩
    rw [activeTimersFor_eq]
    exact filter_cancel_nil m u _ _ (filter_cancel_of_only m u tid _ honly)

theorem timerFire_stopped (s : ServerState) (m u : String)
    (hstop : activeTimersFor s m u = []) (tid2 τ : Nat) :
    activeTimersFor (SocketTS.timerFire s tid2 τ).1 m u = []
    ∧ stopEmits m u (SocketTS.timerFire s tid2 τ).2 = [] := by
  cases hfind : s.timers.find? (fun t => t.id == tid2) with
  | none =>
    rw [timerFire_none s tid2 τ hfind]
    exact ⟨hstop, rfl⟩
  | some t =>
    by_cases hg : t.active = true ∧ t.fireAt ≤ τ
    · have htne : ¬(t.meetingId = m ∧ t.userId = u) := by
        rintro ⟨h1, h2⟩
        have hmem : t ∈ activeTimersFor s m u := by
          rw [activeTimersFor_eq]
          refine List.mem_filter.2 ⟨List.mem_of_find?_eq_some hfind, ?_⟩
          simp [typingPred, hg.1, h1, h2]
        rw [hstop] at hmem
        simp at hmem
      rw [timerFire_found s tid2 τ t hfind hg.1 hg.2]
      have hstop1 : List.filter (typingPred m u) (cancelTimer tid2 s.timers) = [] := by
        apply filter_cancel_nil
        rw [← activeTimersFor_eq]
        exact hstop
      cases halm : alookup t.meetingId s.typingUsers with
      | none =>
        rw [handleTypingStop_none1 { s with timers := cancelTimer tid2 s.timers, now := τ }
          t.meetingId t.userId halm]
        exact ⟨by rw [activeTimersFor_eq]; exact hstop1, rfl⟩
      | some tmap =>
        cases hau : alookup t.userId tmap with
        | none =>
          rw [handleTypingStop_none2 { s with timers := cancelTimer tid2 s.timers, now := τ }
            t.meetingId t.userId tmap halm hau]
          exact ⟨by rw [activeTimersFor_eq]; exact hstop1, rfl⟩
        | some entry =>
          rw [handleTypingStop_entry { s with timers := cancelTimer tid2 s.timers, now := τ }
            t.meetingId t.userId tmap entry halm hau]
          constructor
          · rw [activeTimersFor_eq]
            exact filter_cancel_nil m u _ _ hstop1
          · simp [stopEmits, htne]
    · rw [timerFire_skip s tid2 τ t hfind hg]
      exact ⟨hstop, rfl⟩

theorem timerFire_preserves_armed (s : ServerState) (m u name0 : String) (tid ft : Nat)
    (harm : typingArmedFor s m u name0 tid ft) (huniq : entryTimerUnique s m u tid)
    (tid2 τ : Nat) (hnot : ¬(tid2 = tid ∧ ft ≤ τ)) :
    typingArmedFor (SocketTS.timerFire s tid2 τ).1 m u name0 tid ft
    ∧ entryTimerUnique (SocketTS.timerFire s tid2 τ).1 m u tid
    ∧ stopEmits m u (SocketTS.timerFire s tid2 τ).2 = [] := by
  obtain ⟨hent, hact, hfind⟩ := harm
  have honly : ∀ t ∈ s.timers, typingPred m u t = true →
      t = { id := tid, meetingId := m, userId := u, fireAt := ft, active := true } := by
    intro t ht hp
    have hmem : t ∈ activeTimersFor s m u := by
      rw [activeTimersFor_eq]
      exact List.mem_filter.2 ⟨ht, hp⟩
    rw [hact] at hmem
    exact List.mem_singleton.1 hmem
  cases hfind2 : s.timers.find? (fun t => t.id == tid2) with
  | none =>
    rw [timerFire_none s tid2 τ hfind2]
    exact ⟨⟨hent, hact, hfind⟩, huniq, rfl⟩
  | some t =>
    by_cases hg : t.active = true ∧ t.fireAt ≤ τ
    · have htid2 : t.id = tid2 := by simpa using List.find?_some hfind2
      have htmem : t ∈ s.timers := List.mem_of_find?_eq_some hfind2
      have htne : ¬(t.meetingId = m ∧ t.userId = u) := by
        rintro ⟨h1, h2⟩
        have ht0 : t = { id := tid, meetingId := m, userId := u, fireAt := ft, active := true } :=
          honly t htmem (by simp [typingPred, hg.1, h1, h2])
        apply hnot
        constructor
        · rw [← htid2, ht0]
        · have hft : t.fireAt = ft := by rw [ht0]
          rw [← hft]
          exact hg.2
      have htidne : tid ≠ tid2 := by
        intro he
        rw [← he] at hfind2
        rw [hfind] at hfind2
        have ht0 := Option.some.inj hfind2
        exact htne ⟨by rw [← ht0], by rw [← ht0]⟩
      have hidne : ∀ t2 ∈ s.timers, typingPred m u t2 = true → t2.id ≠ tid2 := by
        intro t2 ht2 hp
        rw [honly t2 ht2 hp]
        exact htidne
      rw [timerFire_found s tid2 τ t hfind2 hg.1 hg.2]
      have hact1 : List.filter (typingPred m u) (cancelTimer tid2 s.timers)
          = [{ id := tid, meetingId := m, userId := u, fireAt := ft, active := true }] := by
        rw [filter_cancel_ne m u tid2 _ hidne]
        rw [← activeTimersFor_eq]
        exact hact
      have hfind1 : (cancelTimer tid2 s.timers).find? (fun t2 => t2.id == tid)
          = some { id := tid, meetingId := m, userId := u, fireAt := ft, active := true } :=
        (find?_id_cancel_ne tid tid2 _ htidne).trans hfind
      cases halm : alookup t.meetingId s.typingUsers with
      | none =>
        rw [handleTypingStop_none1 { s with timers := cancelTimer tid2 s.timers, now := τ }
          t.meetingId t.userId halm]
        refine ⟨⟨hent, ?_, hfind1⟩, huniq, rfl⟩
        rw [activeTimersFor_eq]
        exact hact1
      | some tmap =>
        cases hau : alookup t.userId tmap with
        | none =>
          rw [handleTypingStop_none2 { s with timers := cancelTimer tid2 s.timers, now := τ }
            t.meetingId t.userId tmap halm hau]
          refine ⟨⟨hent, ?_, hfind1⟩, huniq, rfl⟩
          rw [activeTimersFor_eq]
          exact hact1
        | some entry =>
          rw [handleTypingStop_entry { s with timers := cancelTimer tid2 s.timers, now := τ }
            t.meetingId t.userId tmap entry halm hau]
          have hmemp : (t.meetingId, tmap) ∈ s.typingUsers := alookup_mem halm
          have hmemq : (t.userId, entry) ∈ tmap := alookup_mem hau
          have hentne : entry.timer ≠ tid := by
            intro he
            exact htne (huniq _ hmemp _ hmemq he)
          have honly1 : ∀ t2 ∈ cancelTimer tid2 s.timers, typingPred m u t2 = true →
              t2.id ≠ entry.timer := by
            intro t2 ht2 hp
            have hmem2 : t2 ∈ List.filter (typingPred m u) (cancelTimer tid2 s.timers) :=
              List.mem_filter.2 ⟨ht2, hp⟩
            rw [hact1] at hmem2
            rw [List.mem_singleton.1 hmem2]
            exact fun he => hentne he.symm
          refine ⟨⟨?_, ?_, ?_⟩, ?_, ?_⟩
          · by_cases hm : t.meetingId = m
            · have hune : t.userId ≠ u := fun he => htne ⟨hm, he⟩
              rw [← hm] at hent ⊢
              unfold typingEntry at hent ⊢
              dsimp only
              rw [alookup_aset_self]
              rw [halm] at hent
              simp only [Option.getD_some] at hent ⊢
              rw [alookup_adel_ne _ (Ne.symm hune)]
              exact hent
            · unfold typingEntry at hent ⊢
              dsimp only
              rw [alookup_aset_ne _ _ (fun he => hm he.symm)]
              exact hent
          · rw [activeTimersFor_eq]
            dsimp only
            rw [filter_cancel_ne m u entry.timer _ honly1]
            exact hact1
          · exact (find?_id_cancel_ne tid entry.timer _ (fun he => hentne he.symm)).trans hfind1
          · intro p hp q hq he
            rcases mem_aset hp with h1 | h1
            · have hq2 : q ∈ adel t.userId tmap := by rw [h1] at hq; exact hq
              have hres := huniq _ hmemp _ (mem_adel hq2) he
              refine ⟨?_, hres.2⟩
              rw [h1]
              exact hres.1
            · exact huniq p h1 q hq he
          · simp [stopEmits, htne]
    · rw [timerFire_skip s tid2 τ t hfind2 hg]
      exact ⟨⟨hent, hact, hfind⟩, huniq, rfl⟩

theorem fireMany_stopped (m u : String) (fires : List (Nat × Nat)) :
    ∀ s : ServerState, activeTimersFor s m u = [] →
      stopEmits m u (SocketTS.fireMany s fires).2 = []
      ∧ activeTimersFor (SocketTS.fireMany s fires).1 m u = [] := by
  induction fires with
  | nil =>
    intro s hstop
    exact ⟨rfl, hstop⟩
  | cons p rest ih =>
    intro s hstop
    obtain ⟨tid2, τ⟩ := p
    rcases hfire : SocketTS.timerFire s tid2 τ with ⟨s1, e1⟩
    have hstep := timerFire_stopped s m u hstop tid2 τ
    rw [hfire] at hstep
    dsimp only at hstep
    have heq : SocketTS.fireMany s ((tid2, τ) :: rest)
        = ((SocketTS.fireMany s1 rest).1, e1 ++ (SocketTS.fireMany s1 rest).2) := by
      simp [SocketTS.fireMany, hfire]
    rw [heq]
    dsimp only
    constructor
    · rw [stopEmits_append, hstep.2, (ih s1 hstep.1).1]
      rfl
    · exact (ih s1 hstep.1).2

theorem fireMany_armed (m u name0 : String) (tid ft : Nat) (fires : List (Nat × Nat)) :
    ∀ s : ServerState, typingArmedFor s m u name0 tid ft → entryTimerUnique s m u tid →
      stopEmits m u (SocketTS.fireMany s fires).2
        = if fires.any (fun p => p.1 == tid && decide (ft ≤ p.2)) then
            [{ target := Target.room m, event := EventOut.userStoppedTyping u }]
          else [] := by
  induction fires with
  | nil =>
    intro s _ _
    simp [SocketTS.fireMany, stopEmits]
  | cons p rest ih =>
    intro s harm huniq
    obtain ⟨tid2, τ⟩ := p
    rcases hfire : SocketTS.timerFire s tid2 τ with ⟨s1, e1⟩
    have heq : SocketTS.fireMany s ((tid2, τ) :: rest)
        = ((SocketTS.fireMany s1 rest).1, e1 ++ (SocketTS.fireMany s1 rest).2) := by
      simp [SocketTS.fireMany, hfire]
    rw [heq]
    dsimp only
    by_cases hhead : tid2 = tid ∧ ft ≤ τ
    · obtain ⟨h1, hle⟩ := hhead
      subst h1
      have hsucc := timerFire_success s m u name0 tid2 ft harm τ hle
      rw [hfire] at hsucc
      dsimp only at hsucc
      have hrest := fireMany_stopped m u rest s1 hsucc.2
      rw [stopEmits_append, hsucc.1, hrest.1]
      simp [stopEmits, hle]
    · have hstep := timerFire_preserves_armed s m u name0 tid ft harm huniq tid2 τ hhead
      rw [hfire] at hstep
      dsimp only at hstep
      rw [stopEmits_append, hstep.2.2, ih s1 hstep.1 hstep.2.1]
      have hb : ((tid2 == tid) && decide (ft ≤ τ)) = false := by
        cases h1 : (tid2 == tid) with
        | false => simp
        | true =>
          have h2 : tid2 = tid := by simpa using h1
          have h3 : ¬ ft ≤ τ := fun hle => hhead ⟨h2, hle⟩
          simp [h3]
      rw [List.any_cons]
      dsimp only
      rw [hb]
      rw [Bool.false_or]
      exact List.nil_append _

theorem typingStart_idle_arm (s : ServerState) (m u name sid : String)
    (hidle : typingIdleFor s m u)
    (hfresh : s.timers.find? (fun t => t.id == s.nextTimer) = none) :
    typingArmedFor (SocketTS.typingStart s m u name sid).1 m u name s.nextTimer
      (s.now + 3000) := by
  obtain ⟨hent, hact⟩ := hidle
  have hau : alookup u ((alookup m s.typingUsers).getD []) = none := hent
  unfold SocketTS.typingStart
  simp only [hau]
  refine ⟨?_, ?_, ?_⟩
  · unfold typingEntry
    dsimp only
    rw [alookup_aset_self]
    simp only [Option.getD_some]
    rw [alookup_aset_self]
  · rw [activeTimersFor_eq]
    dsimp only
    rw [List.filter_append]
    have h1 : List.filter (typingPred m u) s.timers = [] := by
      rw [← activeTimersFor_eq]
      exact hact
    rw [h1]
    simp [typingPred]
  · dsimp only
    rw [List.find?_append, hfresh]
    simp

theorem typingStart_rearm (s : ServerState) (m u name sid name0 : String) (tid0 ft0 : Nat)
    (harm : typingArmedFor s m u name0 tid0 ft0)
    (hne : tid0 ≠ s.nextTimer)
    (hfresh : s.timers.find? (fun t => t.id == s.nextTimer) = none) :
    typingArmedFor (SocketTS.typingStart s m u name sid).1 m u name s.nextTimer (s.now + 3000)
    ∧ ∀ t ∈ (SocketTS.typingStart s m u name sid).1.timers, t.id = tid0 → t.active = false := by
  obtain ⟨hent, hact, hfind⟩ := harm
  have hau : alookup u ((alookup m s.typingUsers).getD [])
      = some { userId := u, userName := name0, timer := tid0 } := hent
  have honly : ∀ t ∈ s.timers, typingPred m u t = true → t.id = tid0 := by
    intro t ht hp
    have hmem : t ∈ activeTimersFor s m u := by
      rw [activeTimersFor_eq]
      exact List.mem_filter.2 ⟨ht, hp⟩
    rw [hact] at hmem
    rw [List.mem_singleton.1 hmem]
  unfold SocketTS.typingStart
  simp only [hau]
  constructor
  · refine ⟨?_, ?_, ?_⟩
    · unfold typingEntry
      dsimp only
      rw [alookup_aset_self]
      simp only [Option.getD_some]
      rw [alookup_aset_self]
    · rw [activeTimersFor_eq]
      dsimp only
      rw [List.filter_append]
      rw [filter_cancel_of_only m u tid0 _ honly]
      simp [typingPred]
    · dsimp only
      rw [List.find?_append, find?_id_cancel_none s.nextTimer tid0 _ hfresh]
      simp
  · intro t ht hid
    rcases List.mem_append.1 ht with h1 | h1
    · exact cancelTimer_inactive tid0 _ t h1 hid
    · have h2 := List.mem_singleton.1 h1
      rw [h2] at hid
      dsimp only at hid
      exact absurd hid.symm hne

/-- C4 (confirmed).  Typing auto-expiry: a typing_start from Idle (or from
Typing — debounce) leaves exactly one pending expiry task, due exactly
3000ms after that typing_start, replacing and cancelling any previous
task, so the timeout is measured from the last typing_start; the task
cannot fire before its due time (attempting earlier changes nothing and
emits nothing); and with no subsequent typing_start or typing_stop, any
sequence of task firings delivers exactly one user_stopped_typing to the
room — one when some firing happens at or after the due time, none
before. -/
theorem typing_auto_expiry (s : ServerState) (m u name sid : String) :
    (typingIdleFor s m u →
      s.timers.find? (fun t => t.id == s.nextTimer) = none →
      typingArmedFor (SocketTS.typingStart s m u name sid).1 m u name s.nextTimer
        (s.now + 3000))
    ∧ (∀ name0 tid0 ft0, typingArmedFor s m u name0 tid0 ft0 →
        tid0 ≠ s.nextTimer →
        s.timers.find? (fun t => t.id == s.nextTimer) = none →
        typingArmedFor (SocketTS.typingStart s m u name sid).1 m u name s.nextTimer
          (s.now + 3000)
        ∧ ∀ t ∈ (SocketTS.typingStart s m u name sid).1.timers,
            t.id = tid0 → t.active = false)
    ∧ (∀ name0 tid ft, typingArmedFor s m u name0 tid ft →
        ∀ τ, τ < ft → SocketTS.timerFire s tid τ = (s, []))
    ∧ (∀ name0 tid ft, typingArmedFor s m u name0 tid ft →
        entryTimerUnique s m u tid →
        ∀ fires : List (Nat × Nat),
          stopEmits m u (SocketTS.fireMany s fires).2
            = if fires.any (fun p => p.1 == tid && decide (ft ≤ p.2)) then
                [{ target := Target.room m, event := EventOut.userStoppedTyping u }]
              else []) := by
  refine ⟨?_, ?_, ?_, ?_⟩
  · intro hidle hfresh
    exact typingStart_idle_arm s m u name sid hidle hfresh
  · intro name0 tid0 ft0 harm hne hfresh
    exact typingStart_rearm s m u name sid name0 tid0 ft0 harm hne hfresh
  · intro name0 tid ft harm τ hlt
    obtain ⟨_, _, hfind⟩ := harm
    apply timerFire_skip s tid τ _ hfind
    rintro ⟨_, hle⟩
    exact absurd hle (by simpa using hlt)
  · intro name0 tid ft harm huniq fires
    exact fireMany_armed m u name0 tid ft fires s harm huniq

/-- Witness for typing_auto_expiry: after Alice's typing_start at t=100000
her expiry task is due at 103000; firing attempts at 102000 (too early),
103000 (fires) and 200000 (already spent) deliver exactly one
user_stopped_typing. -/
theorem typing_auto_expiry_witness :
    stopEmits "m1" "u1"
        (SocketTS.fireMany exTyping [(0, 102000), (0, 103000), (0, 200000)]).2
      = [{ target := Target.room "m1", event := EventOut.userStoppedTyping "u1" }] := by
  have h := (typing_auto_expiry exTyping "m1" "u1" "Alice" "s1").2.2.2 "Alice" 0 103000
    ⟨by decide, by decide, by decide⟩ (by unfold entryTimerUnique; decide)
    [(0, 102000), (0, 103000), (0, 200000)]
  rw [h]
  decide
